import Mathlib

/- Verification of the core of the WallHack-Prevention-Demo game server
   (TypeScript sources: server/spatial.ts, server/los.ts, server/index.ts,
   server/bots.ts, server/protocol.ts, server/types.ts, client/client.js).

   Embedding conventions used throughout this file:
   * JavaScript numbers are modelled as exact fractions (the type JQ below):
     an integer numerator over a positive natural denominator, with no gcd
     normalization, so that every arithmetic operation reduces inside the
     kernel and concrete runs of the model can be settled by decide.
   * Math.sqrt is modelled by JQ.sqrt, which is exact precisely when its
     argument is the square of a rational; concrete inputs used in theorems
     either hit that exact case or feed the approximate value only into
     comparisons whose outcome is robust to the approximation.
   * JavaScript Maps are modelled as association lists in insertion order
     (Map.set updates in place or appends; iteration follows list order),
     JavaScript Sets as duplicate-free lists in insertion order, and the
     stringly cell keys "cellX,cellZ" of spatial.ts as pairs of integers
     (the string encoding of a pair of integers is injective).
   * The obstacle side of the spatial grid is static after world load, so
     grid.cells is modelled as the obstacle list plus the derived function
     gridCellObstacles; a cell key that is missing from the Map behaves
     exactly like a cell with no obstacles, which the model makes literal. -/

set_option maxRecDepth 100000

namespace WH

/-- Exact fraction model of a (finite) JavaScript number: numerator over a
positive denominator, not normalized. All operations are kernel-reducible. -/
structure JQ where
  num : Int
  den : Nat
  deriving DecidableEq, Repr

/-- Embed an integer. -/
def JQ.ofInt (n : Int) : JQ := ⟨n, 1⟩

def JQ.add (a b : JQ) : JQ := ⟨a.num * b.den + b.num * a.den, a.den * b.den⟩

def JQ.sub (a b : JQ) : JQ := ⟨a.num * b.den - b.num * a.den, a.den * b.den⟩

def JQ.mul (a b : JQ) : JQ := ⟨a.num * b.num, a.den * b.den⟩

/-- Division. The zero-divisor case is never reached on the modelled code
paths (every division in the source is guarded); it is mapped to 0. -/
def JQ.div (a b : JQ) : JQ :=
  if b.num = 0 then ⟨0, 1⟩
  else ⟨a.num * b.den * b.num.sign, a.den * b.num.natAbs⟩

def JQ.neg (a : JQ) : JQ := ⟨-a.num, a.den⟩

/-- Value-level comparison, as the JavaScript `<=` on numbers. -/
def JQ.le (a b : JQ) : Bool := a.num * b.den ≤ b.num * a.den

/-- Value-level comparison, as the JavaScript `<` on numbers. -/
def JQ.lt (a b : JQ) : Bool := a.num * b.den < b.num * a.den

/-- Value-level equality, as the JavaScript `===` on (non-NaN) numbers. -/
def JQ.beq (a b : JQ) : Bool := a.num * b.den == b.num * a.den

/-- Math.floor. -/
def JQ.floor (a : JQ) : Int := a.num.fdiv a.den

/-- Math.ceil. -/
def JQ.ceil (a : JQ) : Int := -((-a.num).fdiv a.den)

/-- Math.abs. -/
def JQ.abs (a : JQ) : JQ := ⟨a.num.natAbs, a.den⟩

/-- Math.max on two numbers. -/
def JQ.max (a b : JQ) : JQ := if a.lt b then b else a

/-- Math.min on two numbers. -/
def JQ.min (a b : JQ) : JQ := if b.lt a then b else a

/-- Interpretation of a JQ as a rational number. -/
def JQ.toRat (a : JQ) : ℚ := (a.num : ℚ) / (a.den : ℚ)

/-- Fuel-driven binary search for the integer square root, structurally
recursive so that it reduces in the kernel. -/
def natSqrtAux : Nat → Nat → Nat → Nat → Nat
  | 0, lo, _, _ => lo
  | fuel+1, lo, hi, n =>
    if hi ≤ lo then lo
    else
      let mid := (lo + hi + 1) / 2
      if mid * mid ≤ n then natSqrtAux fuel mid hi n
      else natSqrtAux fuel lo (mid - 1) n

/-- Integer square root (floor); 256 halving steps cover every input that
occurs in this development. -/
def natSqrtB (n : Nat) : Nat := natSqrtAux 256 0 n n

/-- Model of Math.sqrt: with a = num/den, sqrt a = sqrt (num * den) / den.
Exact whenever a is the square of a rational (then num * den is a perfect
square), the floor approximation otherwise. Math.sqrt of a negative number
is NaN in JavaScript; that case is unreachable on the modelled paths (the
argument is always a sum of squares) and is mapped to 0. -/
def JQ.sqrt (a : JQ) : JQ :=
  if a.num ≤ 0 then ⟨0, 1⟩
  else ⟨natSqrtB (a.num.natAbs * a.den), a.den⟩

/-- Convenient integer literal embedding. -/
def qi (n : Int) : JQ := JQ.ofInt n

/-- Convenient fraction literal embedding. -/
def qf (n : Int) (d : Nat) : JQ := ⟨n, d⟩

/-- 3D vector over model numbers (types.ts, interface Vector3). -/
structure Vector3 where
  x : JQ
  y : JQ
  z : JQ
  deriving DecidableEq, Repr

/-- Obstacle kind tags (types.ts, Obstacle.type). -/
inductive ObstacleType where
  | wall | hill | tree | house_wall | ruins | fence | tower
  | crate | barricade | rock | shed | boundary | tree_foliage
  deriving DecidableEq, Repr

/-- Obstacle record (types.ts). The visual decoration fields (trunkRadius,
foliageRadius, foliageColor) are forwarded opaquely by the core and are not
modelled. -/
structure Obstacle where
  position : Vector3
  size : Vector3
  type : ObstacleType
  deriving DecidableEq, Repr

/-- SOLID_TYPES of index.ts and bots.ts (the two sets are identical):
obstacle kinds that block movement and bullets. -/
def SOLID_TYPES (t : ObstacleType) : Bool :=
  match t with
  | .house_wall | .ruins | .tower | .shed | .crate
  | .barricade | .rock | .fence | .boundary | .tree => true
  | _ => false

/-- TERRAIN_SIZE = 2000 (terrain.ts). -/
def TERRAIN_SIZE : JQ := qi 2000

/-- CELL_SIZE = TERRAIN_SIZE / GRID_SIZE = 5 (terrain.ts). -/
def CELL_SIZE : JQ := qi 5

/-- HALF_TERRAIN = TERRAIN_SIZE / 2 (spatial.ts). -/
def HALF_TERRAIN : JQ := qi 1000

/-- INV_CELL_SIZE = 1 / CELL_SIZE (spatial.ts). -/
def INV_CELL_SIZE : JQ := qf 1 5

/-- getCellCoords of spatial.ts: the grid cell containing the point (x, z),
computed as floor of (coord + HALF_TERRAIN) * INV_CELL_SIZE per axis. -/
def getCellCoords (x z : JQ) : Int × Int :=
  (((x.add HALF_TERRAIN).mul INV_CELL_SIZE).floor,
   ((z.add HALF_TERRAIN).mul INV_CELL_SIZE).floor)

/-- getCellKey of spatial.ts. The source builds the string "cellX,cellZ";
the model keeps the pair itself, which the string represents injectively. -/
def getCellKey (x z : JQ) : Int × Int := getCellCoords x z

/-- Cell-range test extracted from getOccupiedCells of spatial.ts: obstacle
o occupies cell (cx, cz) iff the cell lies inside the floor-rounded cell
bounding box of the obstacle footprint. -/
def obstacleOccupies (o : Obstacle) (c : Int × Int) : Bool :=
  let halfX := o.size.x.div (qi 2)
  let halfZ := o.size.z.div (qi 2)
  let minCellX := ((o.position.x.sub halfX).add (TERRAIN_SIZE.div (qi 2))).div CELL_SIZE |>.floor
  let maxCellX := ((o.position.x.add halfX).add (TERRAIN_SIZE.div (qi 2))).div CELL_SIZE |>.floor
  let minCellZ := ((o.position.z.sub halfZ).add (TERRAIN_SIZE.div (qi 2))).div CELL_SIZE |>.floor
  let maxCellZ := ((o.position.z.add halfZ).add (TERRAIN_SIZE.div (qi 2))).div CELL_SIZE |>.floor
  decide (minCellX ≤ c.1) && decide (c.1 ≤ maxCellX) &&
  decide (minCellZ ≤ c.2) && decide (c.2 ≤ maxCellZ)

/-- The obstacle list of one grid cell, as built by createSpatialGrid of
spatial.ts: the obstacles (in world order) whose occupied-cell range
contains the cell. A key missing from the cells Map behaves like an empty
obstacle list, so the model is total over all keys. -/
def gridCellObstacles (obstacles : List Obstacle) (c : Int × Int) : List Obstacle :=
  obstacles.filter (fun o => obstacleOccupies o c)

/-- getPackedCellKey of spatial.ts: cellX * 10000 + cellZ. -/
def getPackedCellKey (x z : JQ) : Int :=
  let c := getCellCoords x z
  c.1 * 10000 + c.2

/-- packedToString of spatial.ts, as the pair the produced string denotes:
Math.floor(packed / 10000) and the JavaScript remainder packed % 10000
(truncated remainder, sign of the dividend). -/
def packedToCell (packed : Int) : Int × Int :=
  (packed.fdiv 10000, packed.tmod 10000)

/-- Set-insertion in iteration order: JavaScript Set.add keeps the first
occurrence. -/
def setAdd {α : Type} [DecidableEq α] (l : List α) (a : α) : List α :=
  if a ∈ l then l else l ++ [a]

/-- getCellsAlongRay of spatial.ts: sample ceil(dist / CELL_SIZE) + 1 + 1
points (loop bounds 0..steps inclusive) along the XZ projection of the
segment and return the distinct cells met, in first-visit order. -/
def getCellsAlongRay (s e : Vector3) : List (Int × Int) :=
  let dx := e.x.sub s.x
  let dz := e.z.sub s.z
  let distance := ((dx.mul dx).add (dz.mul dz)).sqrt
  if distance.lt (qf 1 1000) then [getCellKey s.x s.z]
  else
    let steps : Int := (distance.div CELL_SIZE).ceil + 1
    (List.range (steps.toNat + 1)).foldl
      (fun acc i =>
        let t := (qi i).div (qi steps)
        let x := s.x.add (dx.mul t)
        let z := s.z.add (dz.mul t)
        setAdd acc (getCellKey x z))
      []

/-- getNearbyObstacles of spatial.ts: the pre-materialised union of the
obstacles of the containing cell and its 8 neighbours (the cache built by
buildNearbyObstaclesCache stores, for every cell bordering an obstacle
cell, exactly this deduplicated union; a cell outside the cached
neighbourhood yields the empty list, and so does an empty union, which
coincide in the model). -/
def getNearbyObstacles (obstacles : List Obstacle) (x z : JQ) : List Obstacle :=
  let c := getCellCoords x z
  let collected :=
    ([-1, 0, 1] : List Int).foldl (fun acc dx =>
      ([-1, 0, 1] : List Int).foldl (fun acc2 dz =>
        acc2 ++ gridCellObstacles obstacles (c.1 + dx, c.2 + dz)) acc) []
  collected.foldl setAdd []

/-- One slab-axis step of rayIntersectsBox of spatial.ts: either update the
running (tMin, tMax) interval, or, when the normalized direction component
is within 0.0001 of zero, reject outright when the origin lies outside the
slab (none encodes the early `return false`). -/
def slabAxis (tMin tMax dir start bmin bmax : JQ) : Option (JQ × JQ) :=
  if (qf 1 10000).lt dir.abs then
    let t1 := (bmin.sub start).div dir
    let t2 := (bmax.sub start).div dir
    some (tMin.max (t1.min t2), tMax.min (t1.max t2))
  else if start.lt bmin || bmax.lt start then none
  else some (tMin, tMax)

/-- rayIntersectsBox of spatial.ts: slab test of the segment from rayStart
to rayEnd (direction normalized by the segment length, tMin = 0,
tMax = rayLength) against the axis-aligned box given in center/size form. -/
def rayIntersectsBox (rayStart rayEnd boxCenter boxSize : Vector3) : Bool :=
  let rdx := rayEnd.x.sub rayStart.x
  let rdy := rayEnd.y.sub rayStart.y
  let rdz := rayEnd.z.sub rayStart.z
  let rayLength := (((rdx.mul rdx).add (rdy.mul rdy)).add (rdz.mul rdz)).sqrt
  if rayLength.lt (qf 1 1000) then false
  else
    let dirX := rdx.div rayLength
    let dirY := rdy.div rayLength
    let dirZ := rdz.div rayLength
    let bminx := boxCenter.x.sub (boxSize.x.div (qi 2))
    let bminy := boxCenter.y.sub (boxSize.y.div (qi 2))
    let bminz := boxCenter.z.sub (boxSize.z.div (qi 2))
    let bmaxx := boxCenter.x.add (boxSize.x.div (qi 2))
    let bmaxy := boxCenter.y.add (boxSize.y.div (qi 2))
    let bmaxz := boxCenter.z.add (boxSize.z.div (qi 2))
    match slabAxis (qi 0) rayLength dirX rayStart.x bminx bmaxx with
    | none => false
    | some (tMin1, tMax1) =>
      match slabAxis tMin1 tMax1 dirY rayStart.y bminy bmaxy with
      | none => false
      | some (tMin2, tMax2) =>
        match slabAxis tMin2 tMax2 dirZ rayStart.z bminz bmaxz with
        | none => false
        | some (tMin3, tMax3) => tMin3.le tMax3 && tMin3.le rayLength

/-- ENTITY_RADIUS = 1.0 (los.ts). -/
def ENTITY_RADIUS : JQ := qi 1

/-- ENTITY_HEIGHT = 3.6 (los.ts). -/
def ENTITY_HEIGHT : JQ := qf 18 5

/-- EYE_HEIGHT = 3.0 (los.ts). -/
def EYE_HEIGHT : JQ := qi 3

/-- hasLineOfSight of los.ts: enumerate the cells along the XZ projection
of the segment and return false as soon as any obstacle stored in one of
those cells intersects the 3D segment. (The source declares a dedup Set but
never inserts into it; each obstacle is simply tested directly.) -/
def hasLineOfSight (s e : Vector3) (obstacles : List Obstacle) : Bool :=
  !((getCellsAlongRay s e).any (fun k =>
      (gridCellObstacles obstacles k).any (fun o =>
        rayIntersectsBox s e o.position o.size)))

/-- canSeeEntity of los.ts: co-located targets are visible; otherwise cast
four rays from the viewer eye point to the target silhouette edges
(top-left, top-right, bottom-left, bottom-right), the first clear ray
returning true. -/
def canSeeEntity (viewerPos targetPos : Vector3) (obstacles : List Obstacle) : Bool :=
  let dx := targetPos.x.sub viewerPos.x
  let dz := targetPos.z.sub viewerPos.z
  let distXZ := ((dx.mul dx).add (dz.mul dz)).sqrt
  if distXZ.lt (qf 1 1000) then true
  else
    let eyePos : Vector3 := ⟨viewerPos.x, viewerPos.y.add EYE_HEIGHT, viewerPos.z⟩
    let perpX := (dz.neg.div distXZ).mul ENTITY_RADIUS
    let perpZ := (dx.div distXZ).mul ENTITY_RADIUS
    let leftPos : Vector3 :=
      ⟨targetPos.x.add perpX, targetPos.y.add ENTITY_HEIGHT, targetPos.z.add perpZ⟩
    if hasLineOfSight eyePos leftPos obstacles then true
    else
      let rightPos : Vector3 :=
        ⟨targetPos.x.sub perpX, targetPos.y.add ENTITY_HEIGHT, targetPos.z.sub perpZ⟩
      if hasLineOfSight eyePos rightPos obstacles then true
      else
        let leftBottomPos : Vector3 :=
          ⟨targetPos.x.add perpX, targetPos.y, targetPos.z.add perpZ⟩
        if hasLineOfSight eyePos leftBottomPos obstacles then true
        else
          let rightBottomPos : Vector3 :=
            ⟨targetPos.x.sub perpX, targetPos.y, targetPos.z.sub perpZ⟩
          hasLineOfSight eyePos rightBottomPos obstacles

/-- Modelled from the spec for the refinement comparison of claim C3: the
canSee contract stated as a flat disjunction. Co-located (XZ distance below
1e-3) is visible; otherwise the target is visible iff at least one of the
four silhouette rays is unobstructed, from viewerPos + (0, EYE_HEIGHT, 0)
to targetPos offset by the unit XZ normal times ENTITY_RADIUS on either
side, at target height + ENTITY_HEIGHT for the top pair and + 0 for the
bottom pair. -/
def canSeeSpec (viewerPos targetPos : Vector3) (obstacles : List Obstacle) : Bool :=
  let dx := targetPos.x.sub viewerPos.x
  let dz := targetPos.z.sub viewerPos.z
  let distXZ := ((dx.mul dx).add (dz.mul dz)).sqrt
  let eyePos : Vector3 := ⟨viewerPos.x, viewerPos.y.add EYE_HEIGHT, viewerPos.z⟩
  let perpX := (dz.neg.div distXZ).mul ENTITY_RADIUS
  let perpZ := (dx.div distXZ).mul ENTITY_RADIUS
  distXZ.lt (qf 1 1000) ||
  hasLineOfSight eyePos
    ⟨targetPos.x.add perpX, targetPos.y.add ENTITY_HEIGHT, targetPos.z.add perpZ⟩ obstacles ||
  hasLineOfSight eyePos
    ⟨targetPos.x.sub perpX, targetPos.y.add ENTITY_HEIGHT, targetPos.z.sub perpZ⟩ obstacles ||
  hasLineOfSight eyePos
    ⟨targetPos.x.add perpX, targetPos.y, targetPos.z.add perpZ⟩ obstacles ||
  hasLineOfSight eyePos
    ⟨targetPos.x.sub perpX, targetPos.y, targetPos.z.sub perpZ⟩ obstacles

/-- The squared 3D distance between two points, exactly as accumulated in
the distance check of getVisibleEntities (los.ts). -/
def distSq3 (viewerPos entityPos : Vector3) : JQ :=
  let dx := entityPos.x.sub viewerPos.x
  let dy := entityPos.y.sub viewerPos.y
  let dz := entityPos.z.sub viewerPos.z
  ((dx.mul dx).add (dy.mul dy)).add (dz.mul dz)

/-- getVisibleEntities of los.ts: radial filter (squared 3D distance
against viewDistance squared), then, in LOS mode only, the canSeeEntity
test; the viewer itself is skipped. Entity ids that pass are collected in
table iteration order. -/
def getVisibleEntities (viewerPos : Vector3) (entityPositions : List (Int × Vector3))
    (obstacles : List Obstacle) (viewDistance : JQ) (losMode : Bool) (viewerId : Int) :
    List Int :=
  let viewDistanceSq := viewDistance.mul viewDistance
  entityPositions.filterMap (fun pe =>
    if pe.1 = viewerId then none
    else if viewDistanceSq.lt (distSq3 viewerPos pe.2) then none
    else if !losMode then some pe.1
    else if canSeeEntity viewerPos pe.2 obstacles then some pe.1 else none)

/-- First-match association-list lookup: JavaScript Map.get under the
insertion-order list model. -/
def listLookup {α : Type} (l : List (Int × α)) (k : Int) : Option α :=
  match l with
  | [] => none
  | p :: rest => if p.1 = k then some p.2 else listLookup rest k

/-- In-place-or-append association-list update: JavaScript Map.set under
the insertion-order list model. -/
def mapSet (l : List (Int × Nat)) (k : Int) (v : Nat) : List (Int × Nat) :=
  match l with
  | [] => [(k, v)]
  | p :: rest => if p.1 = k then (k, v) :: rest else p :: mapSet rest k v

/-- LOS_GRACE_TICKS = 1 (index.ts). -/
def LOS_GRACE_TICKS : Nat := 1

/-- The grace-window pass of gameTick (index.ts, client update loop): every
grace-map entry that is not freshly visible but still alive is appended to
the final id list and its counter decremented (the entry is dropped at
counter 1 or below); afterwards every freshly visible id has its grace
counter set to LOS_GRACE_TICKS. Returns the final id list and the updated
grace map. -/
def applyGrace (visibleIds : List Int) (table : List (Int × Vector3))
    (grace : List (Int × Nat)) : List Int × List (Int × Nat) :=
  let included := grace.filter (fun p =>
    decide (p.1 ∉ visibleIds ∧ (listLookup table p.1).isSome = true))
  let finalVisibleIds := visibleIds ++ included.map (fun p => p.1)
  let grace1 := grace.filterMap (fun p =>
    if p.1 ∉ visibleIds ∧ (listLookup table p.1).isSome = true then
      (if p.2 ≤ 1 then none else some (p.1, p.2 - 1))
    else some p)
  let grace2 := visibleIds.foldl (fun acc i => mapSet acc i LOS_GRACE_TICKS) grace1
  (finalVisibleIds, grace2)

/-- One client's broadcast-set computation for one tick (index.ts, client
update loop): fresh visibility via getVisibleEntities, then the grace
pass. -/
def broadcastStep (viewerPos : Vector3) (table : List (Int × Vector3))
    (obstacles : List Obstacle) (viewDistance : JQ) (losMode : Bool) (viewerId : Int)
    (grace : List (Int × Nat)) : List Int × List (Int × Nat) :=
  applyGrace (getVisibleEntities viewerPos table obstacles viewDistance losMode viewerId)
    table grace

/-- The per-entity records serialized into the frame (index.ts, client
update loop): each final visible id paired with its current entity data
from the entity table. -/
def buildEntityRecords (finalIds : List Int) (table : List (Int × Vector3)) :
    List (Int × Vector3) :=
  finalIds.filterMap (fun i => (listLookup table i).map (fun p => (i, p)))

/-- An if-then-else with a true branch is a disjunction. -/
theorem iteTrueOr (a b : Bool) : (if a then true else b) = (a || b) := by
  cases a <;> simp

/-- C3: canSeeEntity returns true when the XZ distance is below 1e-3, and
otherwise returns true iff at least one of the four silhouette rays
(top-left, top-right, bottom-left, bottom-right, cast from the eye point
viewerPos + (0, EYE_HEIGHT, 0) to the target offset by the unit XZ normal
times ENTITY_RADIUS, at target height + ENTITY_HEIGHT for the top pair and
+ 0 for the bottom pair) is unobstructed; the nested short-circuit
structure of the source equals this flat disjunction. -/
theorem C3_canSee_four_silhouette_rays (viewerPos targetPos : Vector3)
    (obstacles : List Obstacle) :
    canSeeEntity viewerPos targetPos obstacles = canSeeSpec viewerPos targetPos obstacles := by
  unfold canSeeEntity canSeeSpec
  simp only [iteTrueOr, Bool.or_assoc]

/-- C2: the claim that getCellsAlongRay returns every grid cell touched by
the XZ projection of the segment fails on the arc-length sampling of
spatial.ts. The segment from (2, 0, 0.95) to (8, 0, 8.95) passes through
grid cell (201, 200) (witnessed at parameter t = 503/1000), yet the
sampling with steps = ceil(10/5) + 1 = 3 never lands in that cell, so it is
omitted from the returned set. -/
theorem C2_sampling_omits_pierced_cell :
    getCellCoords ((qi 2).add (((qi 8).sub (qi 2)).mul (qf 503 1000)))
        ((qf 19 20).add (((qf 179 20).sub (qf 19 20)).mul (qf 503 1000))) = (201, 200)
    ∧ (201, 200) ∉ getCellsAlongRay ⟨qi 2, qi 0, qf 19 20⟩ ⟨qi 8, qi 0, qf 179 20⟩ := by
  decide

/-- Membership in getVisibleEntities: an id is freshly visible iff some
table entry with that id is distinct from the viewer, within viewDistance
(squared 3D distance not exceeding viewDistance squared), and, in LOS mode,
passes canSeeEntity. -/
theorem mem_getVisibleEntities {viewerPos : Vector3} {table : List (Int × Vector3)}
    {obstacles : List Obstacle} {viewDistance : JQ} {losMode : Bool} {viewerId e : Int} :
    e ∈ getVisibleEntities viewerPos table obstacles viewDistance losMode viewerId ↔
    ∃ p, (e, p) ∈ table ∧ e ≠ viewerId ∧
      (viewDistance.mul viewDistance).lt (distSq3 viewerPos p) = false ∧
      (losMode = true → canSeeEntity viewerPos p obstacles = true) := by
  unfold getVisibleEntities
  simp only [List.mem_filterMap]
  constructor
  · rintro ⟨⟨e', p⟩, hmem, hf⟩
    simp only at hf
    by_cases h1 : e' = viewerId
    · simp [h1] at hf
    by_cases h2 : ((viewDistance.mul viewDistance).lt (distSq3 viewerPos p)) = true
    · simp [h1, h2] at hf
    have h2' : ((viewDistance.mul viewDistance).lt (distSq3 viewerPos p)) = false := by
      revert h2; cases ((viewDistance.mul viewDistance).lt (distSq3 viewerPos p)) <;> simp
    cases hl : losMode with
    | false =>
      rw [hl] at hf
      simp [h1, h2'] at hf
      subst hf
      exact ⟨p, hmem, h1, h2', by simp⟩
    | true =>
      rw [hl] at hf
      by_cases h4 : canSeeEntity viewerPos p obstacles = true
      · simp [h1, h2', h4] at hf
        subst hf
        exact ⟨p, hmem, h1, h2', fun _ => h4⟩
      · simp [h1, h2', h4] at hf
  · rintro ⟨p, hmem, hne, hdist, hlos⟩
    refine ⟨(e, p), hmem, ?_⟩
    simp only
    rw [if_neg hne, if_neg (by simp [hdist])]
    cases hl : losMode
    · simp
    · simp [hlos hl]

/-- Key/value membership through mapSet: an entry of the updated map is
either the written entry or an entry of the original map. -/
theorem mem_mapSet {l : List (Int × Nat)} {k j : Int} {v r : Nat}
    (h : (j, r) ∈ mapSet l k v) : (j = k ∧ r = v) ∨ (j, r) ∈ l := by
  induction l with
  | nil =>
    simp only [mapSet, List.mem_singleton] at h
    exact Or.inl ⟨congrArg Prod.fst h, congrArg Prod.snd h⟩
  | cons p rest ih =>
    unfold mapSet at h
    by_cases hp : p.1 = k
    · rw [if_pos hp] at h
      rcases List.mem_cons.mp h with h | h
      · exact Or.inl ⟨congrArg Prod.fst h, congrArg Prod.snd h⟩
      · exact Or.inr (List.mem_cons_of_mem _ h)
    · rw [if_neg hp] at h
      rcases List.mem_cons.mp h with h | h
      · exact Or.inr (by rw [h]; exact List.mem_cons_self _ _)
      · rcases ih h with h' | h'
        · exact Or.inl h'
        · exact Or.inr (List.mem_cons_of_mem _ h')

/-- Key/value membership through a fold of mapSet writes with a fixed
value. -/
theorem mem_foldl_mapSet {l : List Int} {g : List (Int × Nat)} {j : Int} {r v : Nat}
    (h : (j, r) ∈ l.foldl (fun acc i => mapSet acc i v) g) :
    (j ∈ l ∧ r = v) ∨ (j, r) ∈ g := by
  induction l generalizing g with
  | nil => exact Or.inr h
  | cons x xs ih =>
    simp only [List.foldl_cons] at h
    rcases ih h with ⟨hj, hr⟩ | hmem
    · exact Or.inl ⟨List.mem_cons_of_mem _ hj, hr⟩
    · rcases mem_mapSet hmem with ⟨hjk, hrv⟩ | hin
      · exact Or.inl ⟨by rw [hjk]; exact List.mem_cons_self _ _, hrv⟩
      · exact Or.inr hin

/-- Membership in the final broadcast id list produced by the grace pass:
an id is included iff it is freshly visible, or it is not freshly visible
but has a grace entry and is still present in the entity table. -/
theorem mem_applyGrace_final {visibleIds : List Int} {table : List (Int × Vector3)}
    {grace : List (Int × Nat)} {e : Int} :
    e ∈ (applyGrace visibleIds table grace).1 ↔
    e ∈ visibleIds ∨
      (e ∉ visibleIds ∧ (listLookup table e).isSome = true ∧ ∃ r, (e, r) ∈ grace) := by
  unfold applyGrace
  simp only [List.mem_append, List.mem_map, List.mem_filter, decide_eq_true_eq]
  constructor
  · rintro (h | ⟨⟨j, r⟩, ⟨hp, hnv, hsome⟩, hfst⟩)
    · exact Or.inl h
    · simp only at hnv hsome hfst
      subst hfst
      exact Or.inr ⟨hnv, hsome, r, hp⟩
  · rintro (h | ⟨hnv, hsome, r, hr⟩)
    · exact Or.inl h
    · exact Or.inr ⟨(e, r), ⟨hr, hnv, hsome⟩, rfl⟩

/-- Keys of the grace map after the grace pass: every surviving entry key
was freshly visible, or descends from an entry of the previous grace map
that was not consumed (consumption happens exactly when the key was not
freshly visible, was still alive, and carried a counter of 1 or less). -/
theorem mem_applyGrace_grace {visibleIds : List Int} {table : List (Int × Vector3)}
    {grace : List (Int × Nat)} {j : Int} {r' : Nat}
    (h : (j, r') ∈ (applyGrace visibleIds table grace).2) :
    j ∈ visibleIds ∨
      ∃ r, (j, r) ∈ grace ∧
        (j ∉ visibleIds → (listLookup table j).isSome = true → 2 ≤ r) := by
  unfold applyGrace at h
  simp only at h
  rcases mem_foldl_mapSet h with ⟨hj, _⟩ | hmem
  · exact Or.inl hj
  · rcases List.mem_filterMap.mp hmem with ⟨p, hp, hf⟩
    by_cases hc : p.1 ∉ visibleIds ∧ (listLookup table p.1).isSome = true
    · rw [if_pos hc] at hf
      by_cases h2 : p.2 ≤ 1
      · rw [if_pos h2] at hf
        exact absurd hf (by simp)
      · rw [if_neg h2] at hf
        have hpair := Option.some.inj hf
        have hj1 : p.1 = j := congrArg Prod.fst hpair
        right
        refine ⟨p.2, by rw [← hj1]; exact hp, fun _ _ => by omega⟩
    · rw [if_neg hc] at hf
      have hpair := Option.some.inj hf
      right
      refine ⟨r', by rw [← hpair]; exact hp, ?_⟩
      intro hnv hsome
      exfalso
      apply hc
      have hj1 : p.1 = j := congrArg Prod.fst hpair
      rw [hj1]
      exact ⟨hnv, hsome⟩

/-- Counter values never exceed LOS_GRACE_TICKS across the grace pass. -/
theorem applyGrace_values_le {visibleIds : List Int} {table : List (Int × Vector3)}
    {grace : List (Int × Nat)}
    (h0 : ∀ p ∈ grace, p.2 ≤ LOS_GRACE_TICKS) :
    ∀ p ∈ (applyGrace visibleIds table grace).2, p.2 ≤ LOS_GRACE_TICKS := by
  rintro ⟨j, r⟩ hp
  unfold applyGrace at hp
  simp only at hp
  rcases mem_foldl_mapSet hp with ⟨_, hr⟩ | hmem
  · rw [hr]
  · rcases List.mem_filterMap.mp hmem with ⟨q, hq, hf⟩
    by_cases hc : q.1 ∉ visibleIds ∧ (listLookup table q.1).isSome = true
    · rw [if_pos hc] at hf
      by_cases h2 : q.2 ≤ 1
      · rw [if_pos h2] at hf
        exact absurd hf (by simp)
      · rw [if_neg h2] at hf
        have hpair := Option.some.inj hf
        have hr2 : q.2 - 1 = r := congrArg Prod.snd hpair
        have := h0 q hq
        simp only [LOS_GRACE_TICKS] at *
        omega
    · rw [if_neg hc] at hf
      have hpair := Option.some.inj hf
      have := h0 q hq
      rw [hpair] at this
      exact this

/-- C1 (amended): if an entity is in the set broadcast to a client on tick
t, then it was freshly visible on tick t (radial distance within
viewDistance and, when losMode is on at t, canSeeEntity holds at tick-t
positions), or it was freshly visible in the same sense on tick t-1 under
the mode in force then; the grace inclusion carries classical-mode
visibility across a toggle into LOS mode, so previous-tick canSee cannot be
asserted. Hypotheses: the grace counters entering tick t-1 respect
LOS_GRACE_TICKS (an invariant of the grace pass, applyGrace_values_le) and
the entity was present in the tick t-1 entity table (true of every entity
id in the table at tick t, since player ids are never reused and bots are
never removed). -/
theorem C1_broadcast_member_visible_now_or_previous
    {viewerPos1 viewerPos2 : Vector3} {table1 table2 : List (Int × Vector3)}
    {obstacles : List Obstacle} {viewDistance : JQ} {losMode1 losMode2 : Bool}
    {viewerId e : Int} {grace0 : List (Int × Nat)}
    (hg : ∀ p ∈ grace0, p.2 ≤ LOS_GRACE_TICKS)
    (hprev : (listLookup table1 e).isSome = true)
    (hmem : e ∈ (broadcastStep viewerPos2 table2 obstacles viewDistance losMode2 viewerId
        (broadcastStep viewerPos1 table1 obstacles viewDistance losMode1 viewerId grace0).2).1) :
    e ∈ getVisibleEntities viewerPos2 table2 obstacles viewDistance losMode2 viewerId ∨
    e ∈ getVisibleEntities viewerPos1 table1 obstacles viewDistance losMode1 viewerId := by
  unfold broadcastStep at hmem
  rcases mem_applyGrace_final.mp hmem with h | ⟨hnv, hsome, r, hr⟩
  · exact Or.inl h
  · right
    rcases mem_applyGrace_grace hr with h | ⟨r0, hr0, himp⟩
    · exact h
    · by_cases hv : e ∈ getVisibleEntities viewerPos1 table1 obstacles viewDistance losMode1
          viewerId
      · exact hv
      · have h2 := himp hv hprev
        have h1 : r0 ≤ 1 := by simpa [LOS_GRACE_TICKS] using hg _ hr0
        omega

/-- Counterexample to C1 as stated: with a solid wall between a viewer at
the origin and entity 7 at (20, 0, 0), a tick in classical mode (losMode
false) makes 7 visible and grants it a grace entry; the client then toggles
to LOS mode, and on the next tick 7 is still broadcast by the grace pass
although canSeeEntity is false on that tick and on the previous tick (the
positions are unchanged) and losMode is true on the broadcast tick, so all
three disjuncts of the claim fail. -/
theorem C1_counterexample_mode_toggle :
    7 ∈ (broadcastStep ⟨qi 0, qi 0, qi 0⟩ [(7, ⟨qi 20, qi 0, qi 0⟩)]
          [⟨⟨qi 10, qi 5, qi 0⟩, ⟨qi 8, qi 10, qi 40⟩, ObstacleType.house_wall⟩]
          (qi 200) true 1000
          (broadcastStep ⟨qi 0, qi 0, qi 0⟩ [(7, ⟨qi 20, qi 0, qi 0⟩)]
            [⟨⟨qi 10, qi 5, qi 0⟩, ⟨qi 8, qi 10, qi 40⟩, ObstacleType.house_wall⟩]
            (qi 200) false 1000 []).2).1
    ∧ canSeeEntity ⟨qi 0, qi 0, qi 0⟩ ⟨qi 20, qi 0, qi 0⟩
        [⟨⟨qi 10, qi 5, qi 0⟩, ⟨qi 8, qi 10, qi 40⟩, ObstacleType.house_wall⟩] = false := by
  decide

/-- Witness for C1 (amended) at the mode-toggle scenario. -/
theorem C1_broadcast_member_visible_now_or_previous_witness :
    (∀ p ∈ ([] : List (Int × Nat)), p.2 ≤ LOS_GRACE_TICKS) ∧
    (listLookup [((7:Int), (⟨qi 20, qi 0, qi 0⟩ : Vector3))] 7).isSome = true ∧
    (7 ∈ getVisibleEntities ⟨qi 0, qi 0, qi 0⟩ [(7, ⟨qi 20, qi 0, qi 0⟩)]
          [⟨⟨qi 10, qi 5, qi 0⟩, ⟨qi 8, qi 10, qi 40⟩, ObstacleType.house_wall⟩]
          (qi 200) true 1000 ∨
     7 ∈ getVisibleEntities ⟨qi 0, qi 0, qi 0⟩ [(7, ⟨qi 20, qi 0, qi 0⟩)]
          [⟨⟨qi 10, qi 5, qi 0⟩, ⟨qi 8, qi 10, qi 40⟩, ObstacleType.house_wall⟩]
          (qi 200) false 1000) :=
  ⟨by decide, by decide,
   @C1_broadcast_member_visible_now_or_previous
     ⟨qi 0, qi 0, qi 0⟩ ⟨qi 0, qi 0, qi 0⟩
     [(7, ⟨qi 20, qi 0, qi 0⟩)] [(7, ⟨qi 20, qi 0, qi 0⟩)]
     [⟨⟨qi 10, qi 5, qi 0⟩, ⟨qi 8, qi 10, qi 40⟩, ObstacleType.house_wall⟩]
     (qi 200) false true 1000 7 []
     (by decide) (by decide) (by decide)⟩

/-- C10: an entity id with a grace entry that is absent from the freshly
computed visible set but still present in the entity table is included in
the client's frame, and the serialized record carries its current table
position; no distance or line-of-sight condition appears among the
hypotheses, so this holds in particular for an entity teleported
arbitrarily far since the previous tick. -/
theorem C10_grace_included_at_current_position
    {visibleIds : List Int} {table : List (Int × Vector3)} {grace : List (Int × Nat)}
    {e : Int} {r : Nat} {p : Vector3}
    (hgr : (e, r) ∈ grace) (hnv : e ∉ visibleIds) (hlook : listLookup table e = some p) :
    e ∈ (applyGrace visibleIds table grace).1 ∧
    (e, p) ∈ buildEntityRecords (applyGrace visibleIds table grace).1 table := by
  have hsome : (listLookup table e).isSome = true := by rw [hlook]; rfl
  have hfin : e ∈ (applyGrace visibleIds table grace).1 :=
    mem_applyGrace_final.mpr (Or.inr ⟨hnv, hsome, r, hgr⟩)
  refine ⟨hfin, List.mem_filterMap.mpr ⟨e, hfin, ?_⟩⟩
  rw [hlook]
  rfl

/-- Witness for C10: an entity respawn-teleported to (900, 0, 0), far
beyond viewDistance 200 from a viewer at the origin, is still disclosed for
one more tick at its new position. -/
theorem C10_grace_included_at_current_position_witness :
    ((7:Int), (1:Nat)) ∈ [((7:Int), (1:Nat))] ∧
    (7:Int) ∉ ([] : List Int) ∧
    listLookup [((7:Int), (⟨qi 900, qi 0, qi 0⟩ : Vector3))] 7 = some ⟨qi 900, qi 0, qi 0⟩ ∧
    ((qi 200).mul (qi 200)).lt (distSq3 ⟨qi 0, qi 0, qi 0⟩ ⟨qi 900, qi 0, qi 0⟩) = true ∧
    (7 ∈ (applyGrace [] [(7, ⟨qi 900, qi 0, qi 0⟩)] [(7, 1)]).1 ∧
     (7, (⟨qi 900, qi 0, qi 0⟩ : Vector3)) ∈
       buildEntityRecords (applyGrace [] [(7, ⟨qi 900, qi 0, qi 0⟩)] [(7, 1)]).1
         [(7, ⟨qi 900, qi 0, qi 0⟩)]) :=
  ⟨by decide, by decide, by decide, by decide,
   @C10_grace_included_at_current_position
     [] [(7, ⟨qi 900, qi 0, qi 0⟩)] [(7, 1)] 7 1 ⟨qi 900, qi 0, qi 0⟩
     (by decide) (by decide) (by decide)⟩

/-- PLAYER_SPEED = 50 (index.ts). -/
def PLAYER_SPEED : JQ := qi 50

/-- BULLET_RADIUS = 0.3 (index.ts). -/
def BULLET_RADIUS : JQ := qf 3 10

/-- The checkCollision closure of the player movement code in gameTick
(index.ts): hard boundary at |x| or |z| at least TERRAIN_SIZE/2 - 10, then
strict inflated-AABB tests (inflation PLAYER_RADIUS = 1.5) against the
solid obstacles near (x, z). -/
def playerCheckCollision (obstacles : List Obstacle) (x z : JQ) : Bool :=
  let boundary := (TERRAIN_SIZE.div (qi 2)).sub (qi 10)
  if boundary.le x.abs || boundary.le z.abs then true
  else
    (getNearbyObstacles obstacles x z).any (fun o =>
      SOLID_TYPES o.type &&
      (let halfX := (o.size.x.div (qi 2)).add (qf 3 2)
       let halfZ := (o.size.z.div (qi 2)).add (qf 3 2)
       (o.position.x.sub halfX).lt x && x.lt (o.position.x.add halfX) &&
       (o.position.z.sub halfZ).lt z && z.lt (o.position.z.add halfZ)))

/-- The per-client movement step of gameTick (index.ts): apply the movement
intent scaled by PLAYER_SPEED * deltaTime; try the full step, and on
collision probe the X-only and Z-only steps independently; write the new
position (with the ground height function h, a parameter whose heightmap
details are independent of the horizontal logic) only when a coordinate
value changed. -/
def playerMoveStep (h : JQ → JQ → JQ) (obstacles : List Obstacle)
    (pos : Vector3) (moveDirection : JQ × JQ) (deltaTime : JQ) : Vector3 :=
  if !(moveDirection.1.beq (qi 0)) || !(moveDirection.2.beq (qi 0)) then
    let dx := (moveDirection.1.mul PLAYER_SPEED).mul deltaTime
    let dz := (moveDirection.2.mul PLAYER_SPEED).mul deltaTime
    let newX := pos.x.add dx
    let newZ := pos.z.add dz
    let finals :=
      if !(playerCheckCollision obstacles newX newZ) then (newX, newZ)
      else
        ((if !(dx.beq (qi 0)) && !(playerCheckCollision obstacles newX pos.z)
          then newX else pos.x),
         (if !(dz.beq (qi 0)) && !(playerCheckCollision obstacles pos.x newZ)
          then newZ else pos.z))
    if !(finals.1.beq pos.x) || !(finals.2.beq pos.z) then
      ⟨finals.1, h finals.1 finals.2, finals.2⟩
    else pos
  else pos

/-- checkCollision of bots.ts: closed inflated-AABB tests (inflation
collisionRadius = 1.5) against the solid obstacles near (x, z); the world
boundary is handled separately in updateBot. -/
def botCheckCollision (obstacles : List Obstacle) (x z : JQ) : Bool :=
  (getNearbyObstacles obstacles x z).any (fun o =>
    SOLID_TYPES o.type &&
    (let halfX := o.size.x.div (qi 2)
     let halfZ := o.size.z.div (qi 2)
     ((o.position.x.sub halfX).sub (qf 3 2)).le x &&
     x.le ((o.position.x.add halfX).add (qf 3 2)) &&
     ((o.position.z.sub halfZ).sub (qf 3 2)).le z &&
     z.le ((o.position.z.add halfZ).add (qf 3 2))))

/-- The movement portion of updateBot (bots.ts), taking the per-tick step
(dx, dz) (computed upstream from the yaw via the sine lookup tables) as
input: soft-boundary reversal skips the move; otherwise try the full step,
and on collision probe the X-only and Z-only steps independently; the
returned flag is the source's moved flag (false means the bot only turns,
keeping its position). -/
def updateBotMove (h : JQ → JQ → JQ) (obstacles : List Obstacle)
    (pos : Vector3) (dx dz : JQ) : Vector3 × Bool :=
  let newX := pos.x.add dx
  let newZ := pos.z.add dz
  let boundary := (TERRAIN_SIZE.div (qi 2)).sub (qi 50)
  if boundary.lt newX.abs || boundary.lt newZ.abs then (pos, false)
  else if !(botCheckCollision obstacles newX newZ) then
    (⟨newX, h newX newZ, newZ⟩, true)
  else
    let fx := if !(dx.beq (qi 0)) && !(botCheckCollision obstacles newX pos.z)
              then newX else pos.x
    let fz := if !(dz.beq (qi 0)) && !(botCheckCollision obstacles pos.x newZ)
              then newZ else pos.z
    let moved := (!(dx.beq (qi 0)) && !(botCheckCollision obstacles newX pos.z)) ||
                 (!(dz.beq (qi 0)) && !(botCheckCollision obstacles pos.x newZ))
    if moved then (⟨fx, h fx fz, fz⟩, true) else (pos, false)

/-- Adding a nonzero increment changes the value: the equality test of the
position-changed guard is false. Requires a well-formed denominator. -/
theorem beq_add_self {a b : JQ} (hden : a.den ≠ 0) (hb : b.beq (qi 0) = false) :
    (a.add b).beq a = false := by
  have hbnum : b.num ≠ 0 := by
    simp only [JQ.beq, qi, JQ.ofInt] at hb
    simpa using hb
  have hd : (a.den : Int) ≠ 0 := Int.natCast_ne_zero.mpr hden
  simp only [JQ.add, JQ.beq]
  rw [beq_eq_false_iff_ne]
  intro h
  push_cast at h
  have h2 : b.num * ((a.den : Int) * a.den) = 0 := by linear_combination h
  exact (mul_ne_zero hbnum (mul_ne_zero hd hd)) h2

/-- C6 (amended): in bot and player movement alike, when the full step
(dx, dz) collides, the X-only and Z-only probes are tried independently:
each axis moves exactly when its own delta is nonzero and its own probe is
collision-free. In particular, when the full step collides, the X-only step
does not, and the Z-only step does not either, both coordinates move, so
z does not stay unchanged as the claim asserts. -/
theorem C6_wall_slide_tries_both_axes
    (h : JQ → JQ → JQ) (obstacles : List Obstacle) (pos : Vector3)
    (m : JQ × JQ) (deltaTime : JQ) (dx dz : JQ)
    (hdenx : pos.x.den ≠ 0) (hdenz : pos.z.den ≠ 0)
    (hdxm : dx = (m.1.mul PLAYER_SPEED).mul deltaTime)
    (hdzm : dz = (m.2.mul PLAYER_SPEED).mul deltaTime)
    (hdx : dx.beq (qi 0) = false) (hdz : dz.beq (qi 0) = false)
    (hfullP : playerCheckCollision obstacles (pos.x.add dx) (pos.z.add dz) = true)
    (hxfreeP : playerCheckCollision obstacles (pos.x.add dx) pos.z = false)
    (hzfreeP : playerCheckCollision obstacles pos.x (pos.z.add dz) = false)
    (hbound : ((((TERRAIN_SIZE.div (qi 2)).sub (qi 50)).lt (pos.x.add dx).abs) ||
               (((TERRAIN_SIZE.div (qi 2)).sub (qi 50)).lt (pos.z.add dz).abs)) = false)
    (hfullB : botCheckCollision obstacles (pos.x.add dx) (pos.z.add dz) = true)
    (hxfreeB : botCheckCollision obstacles (pos.x.add dx) pos.z = false)
    (hzfreeB : botCheckCollision obstacles pos.x (pos.z.add dz) = false) :
    playerMoveStep h obstacles pos m deltaTime =
      ⟨pos.x.add dx, h (pos.x.add dx) (pos.z.add dz), pos.z.add dz⟩ ∧
    updateBotMove h obstacles pos dx dz =
      (⟨pos.x.add dx, h (pos.x.add dx) (pos.z.add dz), pos.z.add dz⟩, true) := by
  constructor
  · have hm1 : m.1.beq (qi 0) = false := by
      by_contra hc
      have hm1' : m.1.beq (qi 0) = true := by
        revert hc; cases m.1.beq (qi 0) <;> simp
      have : m.1.num = 0 := by
        simp only [JQ.beq, qi, JQ.ofInt] at hm1'
        simpa using hm1'
      apply absurd hdx
      rw [hdxm]
      simp [JQ.beq, JQ.mul, qi, JQ.ofInt, this]
    unfold playerMoveStep
    rw [← hdxm, ← hdzm]
    simp [hm1, hfullP, hdx, hxfreeP, hdz, hzfreeP,
      beq_add_self hdenx hdx, beq_add_self hdenz hdz]
  · unfold updateBotMove
    simp [hbound, hfullB, hdx, hxfreeB, hdz, hzfreeB]

/-- Counterexample to C6 as stated: a crate corner at (5, 1, 5) with the
player at (1, 0, 1) moving diagonally by (1.6, 1.6): the full step to
(2.6, 2.6) collides, the X-only step to (2.6, 1) does not, and yet the z
coordinate does not stay unchanged: the Z-only probe is also free, so the
step moves both axes (into the very corner the full test rejected). -/
theorem C6_counterexample_corner_slide :
    playerCheckCollision
        [⟨⟨qi 5, qi 1, qi 5⟩, ⟨qi 2, qi 2, qi 2⟩, ObstacleType.crate⟩] (qf 13 5) (qf 13 5)
      = true ∧
    playerCheckCollision
        [⟨⟨qi 5, qi 1, qi 5⟩, ⟨qi 2, qi 2, qi 2⟩, ObstacleType.crate⟩] (qf 13 5) (qi 1)
      = false ∧
    ((playerMoveStep (fun _ _ => qi 0)
        [⟨⟨qi 5, qi 1, qi 5⟩, ⟨qi 2, qi 2, qi 2⟩, ObstacleType.crate⟩]
        ⟨qi 1, qi 0, qi 1⟩ (qf 24 25, qf 24 25) (qf 1 30)).z.beq (qi 1)) = false := by
  decide

/-- Witness for C6 (amended) at the crate-corner scenario. -/
theorem C6_wall_slide_tries_both_axes_witness :
    playerMoveStep (fun _ _ => qi 0)
        [⟨⟨qi 5, qi 1, qi 5⟩, ⟨qi 2, qi 2, qi 2⟩, ObstacleType.crate⟩]
        ⟨qi 1, qi 0, qi 1⟩ (qf 24 25, qf 24 25) (qf 1 30) =
      ⟨(qi 1).add (((qf 24 25).mul PLAYER_SPEED).mul (qf 1 30)),
       qi 0,
       (qi 1).add (((qf 24 25).mul PLAYER_SPEED).mul (qf 1 30))⟩ ∧
    updateBotMove (fun _ _ => qi 0)
        [⟨⟨qi 5, qi 1, qi 5⟩, ⟨qi 2, qi 2, qi 2⟩, ObstacleType.crate⟩]
        ⟨qi 1, qi 0, qi 1⟩ (((qf 24 25).mul PLAYER_SPEED).mul (qf 1 30))
        (((qf 24 25).mul PLAYER_SPEED).mul (qf 1 30)) =
      (⟨(qi 1).add (((qf 24 25).mul PLAYER_SPEED).mul (qf 1 30)),
        qi 0,
        (qi 1).add (((qf 24 25).mul PLAYER_SPEED).mul (qf 1 30))⟩, true) :=
  C6_wall_slide_tries_both_axes (fun _ _ => qi 0)
    [⟨⟨qi 5, qi 1, qi 5⟩, ⟨qi 2, qi 2, qi 2⟩, ObstacleType.crate⟩]
    ⟨qi 1, qi 0, qi 1⟩ (qf 24 25, qf 24 25) (qf 1 30)
    (((qf 24 25).mul PLAYER_SPEED).mul (qf 1 30))
    (((qf 24 25).mul PLAYER_SPEED).mul (qf 1 30))
    (by decide) (by decide) rfl rfl (by decide) (by decide)
    (by decide) (by decide) (by decide) (by decide) (by decide) (by decide) (by decide)

/-- The capsule hit test of checkEntityAt (index.ts, bullet update loop):
XZ distance strictly below the local entityRadius 1.5 plus BULLET_RADIUS,
and the test point's y inside [entity.y, entity.y + 4]. -/
def bulletHitsEntityAt (epos : Vector3) (px py pz : JQ) : Bool :=
  let dx := px.sub epos.x
  let dz := pz.sub epos.z
  let distXZ := ((dx.mul dx).add (dz.mul dz)).sqrt
  distXZ.lt ((qf 3 2).add BULLET_RADIUS) && epos.y.le py && py.le (epos.y.add (qi 4))

/-- checkEntityAt of the bullet update loop (index.ts): the first entity in
table order, other than the bullet owner, whose capsule contains the test
point; -1 when there is none. -/
def checkEntityAt : List (Int × Vector3) → Int → JQ → JQ → JQ → Int
  | [], _, _, _, _ => -1
  | (id, epos) :: rest, ownerId, px, py, pz =>
    if id = ownerId then checkEntityAt rest ownerId px py pz
    else if bulletHitsEntityAt epos px py pz then id
    else checkEntityAt rest ownerId px py pz

/-- C5 (amended): during bullet sub-stepping, a point registers an entity
hit iff some non-owner entity's capsule (XZ distance strictly below
1.5 + BULLET_RADIUS = 1.8, not the claim's ENTITY_RADIUS + BULLET_RADIUS =
1.3, and y within [entity.y, entity.y + 4]) contains it; the reported id is
the first such entity in table order and satisfies the test. The sentinel
-1 must not occur as a table id (entity ids are natural numbers). -/
theorem C5_entity_hit_iff (entities : List (Int × Vector3)) (ownerId : Int)
    (px py pz : JQ) (hid : ∀ pe ∈ entities, pe.1 ≠ -1) :
    (checkEntityAt entities ownerId px py pz ≠ -1 ↔
      ∃ pe ∈ entities, pe.1 ≠ ownerId ∧ bulletHitsEntityAt pe.2 px py pz = true) ∧
    (∀ i, checkEntityAt entities ownerId px py pz = i → i ≠ -1 →
      ∃ p2, (i, p2) ∈ entities ∧ i ≠ ownerId ∧ bulletHitsEntityAt p2 px py pz = true) := by
  induction entities with
  | nil =>
    refine ⟨by simp [checkEntityAt], ?_⟩
    intro i hi hne
    rw [checkEntityAt] at hi
    exact absurd hi.symm hne
  | cons pe rest ih =>
    obtain ⟨id, epos⟩ := pe
    have hid' : ∀ q ∈ rest, q.1 ≠ -1 := fun q hq => hid q (List.mem_cons_of_mem _ hq)
    obtain ⟨ih1, ih2⟩ := ih hid'
    by_cases ho : id = ownerId
    · rw [show checkEntityAt ((id, epos) :: rest) ownerId px py pz =
          checkEntityAt rest ownerId px py pz by rw [checkEntityAt, if_pos ho]]
      constructor
      · rw [ih1]
        constructor
        · rintro ⟨q, hq, hqo, hqhit⟩
          exact ⟨q, List.mem_cons_of_mem _ hq, hqo, hqhit⟩
        · rintro ⟨q, hq, hqo, hqhit⟩
          rcases List.mem_cons.mp hq with rfl | hq'
          · exact absurd ho (by simpa using hqo)
          · exact ⟨q, hq', hqo, hqhit⟩
      · intro i hi hne
        rcases ih2 i hi hne with ⟨p2, hp2, hio, hhit⟩
        exact ⟨p2, List.mem_cons_of_mem _ hp2, hio, hhit⟩
    · by_cases hh : bulletHitsEntityAt epos px py pz = true
      · rw [show checkEntityAt ((id, epos) :: rest) ownerId px py pz = id by
          rw [checkEntityAt, if_neg ho, if_pos hh]]
        refine ⟨?_, ?_⟩
        · constructor
          · intro _
            exact ⟨(id, epos), List.mem_cons_self _ _, ho, hh⟩
          · intro _
            exact hid (id, epos) (List.mem_cons_self _ _)
        · intro i hi hne
          rw [← hi]
          exact ⟨epos, List.mem_cons_self _ _, ho, hh⟩
      · rw [show checkEntityAt ((id, epos) :: rest) ownerId px py pz =
          checkEntityAt rest ownerId px py pz by
            rw [checkEntityAt, if_neg ho, if_neg hh]]
        constructor
        · rw [ih1]
          constructor
          · rintro ⟨q, hq, hqo, hqhit⟩
            exact ⟨q, List.mem_cons_of_mem _ hq, hqo, hqhit⟩
          · rintro ⟨q, hq, hqo, hqhit⟩
            rcases List.mem_cons.mp hq with rfl | hq'
            · exact absurd hqhit (by simpa using hh)
            · exact ⟨q, hq', hqo, hqhit⟩
        · intro i hi hne
          rcases ih2 i hi hne with ⟨p2, hp2, hio, hhit⟩
          exact ⟨p2, List.mem_cons_of_mem _ hp2, hio, hhit⟩

/-- Counterexample to C5 as stated: a bullet point at XZ distance exactly
1.5 from an entity at the origin (inside [y, y+4] vertically) registers a
hit in the code, although 1.5 is not strictly below the claim's
ENTITY_RADIUS + BULLET_RADIUS = 1.3 threshold. -/
theorem C5_counterexample_radius :
    checkEntityAt [(0, ⟨qi 0, qi 0, qi 0⟩)] 1000 (qf 3 2) (qi 1) (qi 0) = 0 ∧
    ((((qf 3 2).sub (qi 0)).mul ((qf 3 2).sub (qi 0))).add
        (((qi 0).sub (qi 0)).mul ((qi 0).sub (qi 0)))).sqrt.lt
      (ENTITY_RADIUS.add BULLET_RADIUS) = false := by
  decide

/-- Witness for C5 (amended) at a one-entity table with a hit at XZ
distance 1.5. -/
theorem C5_entity_hit_iff_witness :
    (∀ pe ∈ [((0:Int), (⟨qi 0, qi 0, qi 0⟩ : Vector3))], pe.1 ≠ -1) ∧
    (checkEntityAt [(0, ⟨qi 0, qi 0, qi 0⟩)] 1000 (qf 3 2) (qi 1) (qi 0) ≠ -1 ↔
      ∃ pe ∈ [((0:Int), (⟨qi 0, qi 0, qi 0⟩ : Vector3))], pe.1 ≠ 1000 ∧
        bulletHitsEntityAt pe.2 (qf 3 2) (qi 1) (qi 0) = true) :=
  ⟨by decide,
   (C5_entity_hit_iff [(0, ⟨qi 0, qi 0, qi 0⟩)] 1000 (qf 3 2) (qi 1) (qi 0) (by decide)).1⟩

/-- FIRE_INTERVAL = 1000 / FIRE_RATE = 200 milliseconds (index.ts). -/
def FIRE_INTERVAL : JQ := qi 200

/-- The per-client fire gate of gameTick (index.ts, bullet spawn loop): at
tick wallclock time now, a bullet is spawned iff the client is shooting and
now - lastShotTime is at least FIRE_INTERVAL; on spawn, lastShotTime is set
to now. Returns the spawn decision and the updated lastShotTime. -/
def fireGateStep (lastShotTime now : JQ) (shooting : Bool) : Bool × JQ :=
  if shooting && FIRE_INTERVAL.le (now.sub lastShotTime) then (true, now)
  else (false, lastShotTime)

/-- The fire gate run over a sequence of ticks, each given as its wallclock
time and the client's shooting flag at that tick; returns the accepted
spawn times in order. -/
def runFireGate (lastShotTime : JQ) : List (JQ × Bool) → List JQ
  | [] => []
  | (now, sh) :: rest =>
    if (fireGateStep lastShotTime now sh).1 then
      now :: runFireGate (fireGateStep lastShotTime now sh).2 rest
    else runFireGate (fireGateStep lastShotTime now sh).2 rest

/-- The gate state after an accepting tick is the tick time; after a
rejecting tick it is unchanged. -/
theorem fireGateStep_eq (lastShotTime now : JQ) (sh : Bool) :
    (fireGateStep lastShotTime now sh = (true, now) ∧
      (sh && FIRE_INTERVAL.le (now.sub lastShotTime)) = true) ∨
    (fireGateStep lastShotTime now sh = (false, lastShotTime) ∧
      (sh && FIRE_INTERVAL.le (now.sub lastShotTime)) = false) := by
  unfold fireGateStep
  by_cases hc : (sh && FIRE_INTERVAL.le (now.sub lastShotTime)) = true
  · exact Or.inl ⟨by rw [if_pos hc], hc⟩
  · refine Or.inr ⟨by rw [if_neg hc], ?_⟩
    revert hc
    cases (sh && FIRE_INTERVAL.le (now.sub lastShotTime)) <;> simp

/-- The first spawn accepted after state lastShotTime is at least
FIRE_INTERVAL later than lastShotTime. -/
theorem runFireGate_head_gap (lastShotTime : JQ) (ticks : List (JQ × Bool)) :
    ∀ t ∈ (runFireGate lastShotTime ticks).head?,
      FIRE_INTERVAL.le (t.sub lastShotTime) = true := by
  induction ticks generalizing lastShotTime with
  | nil => intro t ht; simp [runFireGate] at ht
  | cons p rest ih =>
    obtain ⟨now, sh⟩ := p
    intro t ht
    rw [runFireGate] at ht
    rcases fireGateStep_eq lastShotTime now sh with ⟨hstep, hcond⟩ | ⟨hstep, hcond⟩
    · rw [hstep] at ht
      simp only [if_true, ite_true, List.head?_cons, Option.mem_def, Option.some.injEq] at ht
      subst ht
      exact Bool.and_elim_right hcond
    · rw [hstep] at ht
      simp only [Bool.false_eq_true, if_false] at ht
      exact ih lastShotTime t ht

/-- C9: (i) a bullet is spawned on a tick iff the client is shooting and
the wallclock time since the last accepted shot is at least FIRE_INTERVAL =
200 ms; (ii) at most one bullet is spawned per client per tick; (iii) any
two consecutive accepted spawn times of one client are at least 200 ms
apart; (iv) a client that holds SHOOT for 1.0 s across 30 ticks at the
ideal 100/3 ms spacing (first tick at wallclock 10000) has exactly the 5
spawns at 10000, 10200, 10400, 10600 and 10800 ms. -/
theorem C9_fire_rate_gating :
    (∀ lastShotTime now : JQ, ∀ shooting : Bool,
      (fireGateStep lastShotTime now shooting).1 =
        (shooting && FIRE_INTERVAL.le (now.sub lastShotTime))) ∧
    (∀ lastShotTime now : JQ, ∀ shooting : Bool,
      (runFireGate lastShotTime [(now, shooting)]).length ≤ 1) ∧
    (∀ lastShotTime : JQ, ∀ ticks : List (JQ × Bool),
      List.Chain' (fun a b => FIRE_INTERVAL.le (b.sub a) = true)
        (runFireGate lastShotTime ticks)) ∧
    runFireGate (qi 0)
        ((List.range 30).map (fun k => (qf (30000 + 100 * (k : Int)) 3, true))) =
      [qf 30000 3, qf 30600 3, qf 31200 3, qf 31800 3, qf 32400 3] := by
  refine ⟨?_, ?_, ?_, by decide⟩
  · intro lastShotTime now shooting
    rcases fireGateStep_eq lastShotTime now shooting with ⟨hstep, hcond⟩ | ⟨hstep, hcond⟩
    · rw [hstep, hcond]
    · rw [hstep, hcond]
  · intro lastShotTime now shooting
    rw [runFireGate]
    rcases fireGateStep_eq lastShotTime now shooting with ⟨hstep, _⟩ | ⟨hstep, _⟩
    · rw [hstep]
      simp [runFireGate]
    · rw [hstep]
      simp [runFireGate]
  · intro lastShotTime ticks
    induction ticks generalizing lastShotTime with
    | nil => simp [runFireGate]
    | cons p rest ih =>
      obtain ⟨now, sh⟩ := p
      rw [runFireGate]
      rcases fireGateStep_eq lastShotTime now sh with ⟨hstep, _⟩ | ⟨hstep, _⟩
      · rw [hstep]
        simp only [if_true, ite_true]
        exact List.chain'_cons'.mpr ⟨runFireGate_head_gap now rest, ih now⟩
      · rw [hstep]
        simp only [Bool.false_eq_true, if_false]
        exact ih lastShotTime

/-- The packed-key range in which packing a cell as cellX * 10000 + cellZ
and the packedToString decoding are mutually inverse; the in-world cells
0..399 per axis lie well inside it. -/
def inPackRange (c : Int × Int) : Prop :=
  0 ≤ c.1 ∧ c.1 < 10000 ∧ 0 ≤ c.2 ∧ c.2 < 10000

instance (c : Int × Int) : Decidable (inPackRange c) := by
  unfold inPackRange
  infer_instance

/-- packedToString inverts getPackedCellKey on in-range cells. -/
theorem packedToCell_pack {c : Int × Int} (h : inPackRange c) :
    packedToCell (c.1 * 10000 + c.2) = c := by
  obtain ⟨h0, h1, h2, h3⟩ := h
  unfold packedToCell
  have hfd : (c.1 * 10000 + c.2).fdiv 10000 = c.1 := by
    rw [Int.fdiv_eq_ediv]
    all_goals omega
  have htm : (c.1 * 10000 + c.2).tmod 10000 = c.2 := by
    rw [Int.tmod_eq_emod]
    all_goals omega
  rw [hfd, htm]

/-- The packing is injective on in-range cells. -/
theorem pack_inj {c c' : Int × Int} (h : inPackRange c) (h' : inPackRange c')
    (heq : c.1 * 10000 + c.2 = c'.1 * 10000 + c'.2) : c = c' := by
  obtain ⟨a, b⟩ := c
  obtain ⟨a', b'⟩ := c'
  obtain ⟨h0, h1, h2, h3⟩ := h
  obtain ⟨h0', h1', h2', h3'⟩ := h'
  simp only at heq h0 h1 h2 h3 h0' h1' h2' h3' ⊢
  have : a = a' ∧ b = b' := by constructor <;> omega
  rw [this.1, this.2]

/-- The entity-side state of the server: the entity sets of the grid cells
(spatial.ts, GridCell.entities), the module-global entityCellsPacked map
(spatial.ts), and the entity position table (gameState.entities of
index.ts, reduced to positions). -/
structure ServerState where
  cellEntities : Int × Int → Finset Int
  tracked : Int → Option Int
  entities : Int → Option Vector3

/-- updateEntityInGrid of spatial.ts: no-op when the packed key is
unchanged; otherwise remove the id from the recorded old cell (decoded by
packedToString), insert it into the new cell, and record the new packed
key. An untracked id is only inserted. -/
def updateEntityInGrid (s : ServerState) (entityId : Int) (newPos : Vector3) : ServerState :=
  let newPacked := getPackedCellKey newPos.x newPos.z
  match s.tracked entityId with
  | some oldPacked =>
    if oldPacked = newPacked then s
    else
      { s with
        cellEntities := fun c =>
          let afterRemove :=
            if c = packedToCell oldPacked then (s.cellEntities c).erase entityId
            else s.cellEntities c
          if c = packedToCell newPacked then insert entityId afterRemove else afterRemove,
        tracked := fun i => if i = entityId then some newPacked else s.tracked i }
  | none =>
      { s with
        cellEntities := fun c =>
          if c = packedToCell newPacked then insert entityId (s.cellEntities c)
          else s.cellEntities c,
        tracked := fun i => if i = entityId then some newPacked else s.tracked i }

/-- removeEntityFromGrid of spatial.ts: evict a tracked id from its
recorded cell and forget its packed key. -/
def removeEntityFromGrid (s : ServerState) (entityId : Int) : ServerState :=
  match s.tracked entityId with
  | some packed =>
    { s with
      cellEntities := fun c =>
        if c = packedToCell packed then (s.cellEntities c).erase entityId
        else s.cellEntities c,
      tracked := fun i => if i = entityId then none else s.tracked i }
  | none => s

/-- Writing an entity position and updating its grid bin, the combined
shape of every position write in the server (connect, bot move, player
move, respawn teleport): set gameState.entities and call
updateEntityInGrid with the new position. -/
def setEntityPos (s : ServerState) (entityId : Int) (p : Vector3) : ServerState :=
  updateEntityInGrid
    { s with entities := fun i => if i = entityId then some p else s.entities i }
    entityId p

/-- Disconnect teardown (index.ts): removeEntityFromGrid then delete the
table entry. -/
def removeEntity (s : ServerState) (entityId : Int) : ServerState :=
  { removeEntityFromGrid s entityId with
    entities := fun i => if i = entityId then none else s.entities i }

/-- The state before world initialization: nothing anywhere. -/
def initialState : ServerState :=
  ⟨fun _ => ∅, fun _ => none, fun _ => none⟩

/-- A position the server can write: its cell lies in the packing range.
Every position the server produces satisfies this: spawns lie within
±50, bots within ±950, players within ±990, respawns within ±900, all of
which map to cells 0..399. -/
def inWorldBounds (p : Vector3) : Prop :=
  inPackRange (getCellCoords p.x p.z)

instance (p : Vector3) : Decidable (inWorldBounds p) := by
  unfold inWorldBounds
  infer_instance

/-- The reachable server states: world initialization starts from the
empty state, and every subsequent mutation is a position write (connect,
bot move, player move, respawn teleport) or a disconnect removal. -/
inductive Reachable : ServerState → Prop where
  | init : Reachable initialState
  | setPos {s : ServerState} (entityId : Int) (p : Vector3)
      (hb : inWorldBounds p) (hr : Reachable s) : Reachable (setEntityPos s entityId p)
  | remove {s : ServerState} (entityId : Int) (hr : Reachable s) :
      Reachable (removeEntity s entityId)

/-- Grid consistency: every entity of the table is in exactly one cell's
entity set, namely the cell of its position, with the packed key recorded;
ids absent from the table are untracked and in no cell. -/
def GridInv (s : ServerState) : Prop :=
  (∀ id p, s.entities id = some p →
     inPackRange (getCellCoords p.x p.z) ∧
     s.tracked id = some (getPackedCellKey p.x p.z) ∧
     ∀ c, id ∈ s.cellEntities c ↔ c = getCellCoords p.x p.z) ∧
  (∀ id, s.entities id = none →
     s.tracked id = none ∧ ∀ c, id ∉ s.cellEntities c)

/-- The packed key of a position is the packing of its cell. -/
theorem getPackedCellKey_eq (x z : JQ) :
    getPackedCellKey x z = (getCellCoords x z).1 * 10000 + (getCellCoords x z).2 := rfl

/-- Equation: grid insertion of an untracked id. -/
theorem updateEntityInGrid_untracked {s : ServerState} {entityId : Int} {p : Vector3}
    (h : s.tracked entityId = none) :
    updateEntityInGrid s entityId p =
      { s with
        cellEntities := fun c =>
          if c = packedToCell (getPackedCellKey p.x p.z) then
            insert entityId (s.cellEntities c)
          else s.cellEntities c,
        tracked := fun i =>
          if i = entityId then some (getPackedCellKey p.x p.z) else s.tracked i } := by
  unfold updateEntityInGrid
  rw [h]

/-- Equation: the grid update is a no-op when the packed key is
unchanged. -/
theorem updateEntityInGrid_same {s : ServerState} {entityId : Int} {p : Vector3} {old : Int}
    (h : s.tracked entityId = some old) (he : old = getPackedCellKey p.x p.z) :
    updateEntityInGrid s entityId p = s := by
  unfold updateEntityInGrid
  rw [h]
  simp only [he, if_true, ite_true, if_pos rfl]

/-- Equation: grid transfer on a changed packed key. -/
theorem updateEntityInGrid_move {s : ServerState} {entityId : Int} {p : Vector3} {old : Int}
    (h : s.tracked entityId = some old) (hne : old ≠ getPackedCellKey p.x p.z) :
    updateEntityInGrid s entityId p =
      { s with
        cellEntities := fun c =>
          if c = packedToCell (getPackedCellKey p.x p.z) then
            insert entityId
              (if c = packedToCell old then (s.cellEntities c).erase entityId
               else s.cellEntities c)
          else
            (if c = packedToCell old then (s.cellEntities c).erase entityId
             else s.cellEntities c),
        tracked := fun i =>
          if i = entityId then some (getPackedCellKey p.x p.z) else s.tracked i } := by
  unfold updateEntityInGrid
  rw [h]
  simp only [if_neg hne]

/-- Equation: removal of an untracked id does nothing. -/
theorem removeEntityFromGrid_untracked {s : ServerState} {entityId : Int}
    (h : s.tracked entityId = none) : removeEntityFromGrid s entityId = s := by
  unfold removeEntityFromGrid
  rw [h]

/-- Equation: removal of a tracked id erases it from its recorded cell. -/
theorem removeEntityFromGrid_tracked {s : ServerState} {entityId : Int} {packed : Int}
    (h : s.tracked entityId = some packed) :
    removeEntityFromGrid s entityId =
      { s with
        cellEntities := fun c =>
          if c = packedToCell packed then (s.cellEntities c).erase entityId
          else s.cellEntities c,
        tracked := fun i => if i = entityId then none else s.tracked i } := by
  unfold removeEntityFromGrid
  rw [h]

/-- GridInv is preserved by every position write with an in-bounds
position. -/
theorem gridInv_setEntityPos {s : ServerState} (inv : GridInv s) (entityId : Int)
    (p : Vector3) (hb : inWorldBounds p) : GridInv (setEntityPos s entityId p) := by
  obtain ⟨inv1, inv2⟩ := inv
  have hunpack : packedToCell (getPackedCellKey p.x p.z) = getCellCoords p.x p.z :=
    packedToCell_pack hb
  unfold setEntityPos
  cases htr : s.tracked entityId with
  | none =>
    have hent : s.entities entityId = none := by
      cases hent : s.entities entityId with
      | none => rfl
      | some q =>
        have := (inv1 entityId q hent).2.1
        rw [htr] at this
        exact absurd this (by simp)
    have hnocell := (inv2 entityId hent).2
    rw [updateEntityInGrid_untracked
      (s := { s with entities := fun i => if i = entityId then some p else s.entities i }) htr]
    constructor
    · intro id' p' hid'
      simp only at hid'
      by_cases hii : id' = entityId
      · subst hii
        rw [if_pos rfl] at hid'
        have hp' : p = p' := Option.some.inj hid'
        subst hp'
        refine ⟨hb, by simp, ?_⟩
        intro c
        simp only
        by_cases hc : c = packedToCell (getPackedCellKey p.x p.z)
        · rw [if_pos hc]
          simp only [Finset.mem_insert]
          rw [hunpack] at hc
          simp [hc]
        · rw [if_neg hc]
          rw [hunpack] at hc
          simp [hnocell c, hc]
      · rw [if_neg hii] at hid'
        obtain ⟨hr', ht', hc'⟩ := inv1 id' p' hid'
        refine ⟨hr', by simp [hii, ht'], ?_⟩
        intro c
        simp only
        by_cases hc : c = packedToCell (getPackedCellKey p.x p.z)
        · rw [if_pos hc]
          simp only [Finset.mem_insert]
          simp [hii, hc' c]
        · rw [if_neg hc]
          exact hc' c
    · intro id' hid'
      simp only at hid'
      by_cases hii : id' = entityId
      · subst hii
        rw [if_pos rfl] at hid'
        exact absurd hid' (by simp)
      · rw [if_neg hii] at hid'
        obtain ⟨ht', hc'⟩ := inv2 id' hid'
        refine ⟨by simp [hii, ht'], ?_⟩
        intro c
        simp only
        by_cases hc : c = packedToCell (getPackedCellKey p.x p.z)
        · rw [if_pos hc]
          simp only [Finset.mem_insert]
          simp [hii, hc' c]
        · rw [if_neg hc]
          exact hc' c
  | some oldPacked =>
    have hent : ∃ q, s.entities entityId = some q := by
      cases hent : s.entities entityId with
      | some q => exact ⟨q, rfl⟩
      | none =>
        have := (inv2 entityId hent).1
        rw [htr] at this
        exact absurd this (by simp)
    obtain ⟨q, hq⟩ := hent
    obtain ⟨hrq, htq, hcq⟩ := inv1 entityId q hq
    have holdp : oldPacked = getPackedCellKey q.x q.z := by
      rw [htr] at htq
      exact Option.some.inj htq
    have hunpackq : packedToCell oldPacked = getCellCoords q.x q.z := by
      rw [holdp, getPackedCellKey_eq]
      exact packedToCell_pack hrq
    by_cases hsame : oldPacked = getPackedCellKey p.x p.z
    · rw [updateEntityInGrid_same
        (s := { s with entities := fun i => if i = entityId then some p else s.entities i })
        htr hsame]
      have hcellseq : getCellCoords q.x q.z = getCellCoords p.x p.z := by
        apply pack_inj hrq hb
        rw [← getPackedCellKey_eq, ← getPackedCellKey_eq, ← holdp, hsame]
      constructor
      · intro id' p' hid'
        simp only at hid'
        by_cases hii : id' = entityId
        · subst hii
          rw [if_pos rfl] at hid'
          have hp' : p = p' := Option.some.inj hid'
          subst hp'
          refine ⟨hb, ?_, ?_⟩
          · rw [htq, holdp.symm.trans hsame]
          · intro c
            rw [hcq c, hcellseq]
        · rw [if_neg hii] at hid'
          exact inv1 id' p' hid'
      · intro id' hid'
        simp only at hid'
        by_cases hii : id' = entityId
        · subst hii
          rw [if_pos rfl] at hid'
          exact absurd hid' (by simp)
        · rw [if_neg hii] at hid'
          exact inv2 id' hid'
    · rw [updateEntityInGrid_move
        (s := { s with entities := fun i => if i = entityId then some p else s.entities i })
        htr hsame]
      constructor
      · intro id' p' hid'
        simp only at hid'
        by_cases hii : id' = entityId
        · subst hii
          rw [if_pos rfl] at hid'
          have hp' : p = p' := Option.some.inj hid'
          subst hp'
          refine ⟨hb, by simp, ?_⟩
          intro c
          simp only
          by_cases hc : c = packedToCell (getPackedCellKey p.x p.z)
          · rw [if_pos hc]
            simp only [Finset.mem_insert]
            rw [hunpack] at hc
            simp [hc]
          · rw [if_neg hc]
            rw [hunpack] at hc
            by_cases hco : c = packedToCell oldPacked
            · rw [if_pos hco]
              simp only [Finset.mem_erase]
              simp [hc]
            · rw [if_neg hco]
              rw [hunpackq] at hco
              simp [hcq c, hco, hc]
        · rw [if_neg hii] at hid'
          obtain ⟨hr', ht', hc'⟩ := inv1 id' p' hid'
          refine ⟨hr', by simp [hii, ht'], ?_⟩
          intro c
          simp only
          by_cases hc : c = packedToCell (getPackedCellKey p.x p.z)
          · rw [if_pos hc]
            simp only [Finset.mem_insert]
            by_cases hco : c = packedToCell oldPacked
            · rw [if_pos hco]
              simp only [Finset.mem_erase]
              simp [hii, hc' c]
            · rw [if_neg hco]
              simp [hii, hc' c]
          · rw [if_neg hc]
            by_cases hco : c = packedToCell oldPacked
            · rw [if_pos hco]
              simp only [Finset.mem_erase]
              simp [hii, hc' c]
            · rw [if_neg hco]
              exact hc' c
      · intro id' hid'
        simp only at hid'
        by_cases hii : id' = entityId
        · subst hii
          rw [if_pos rfl] at hid'
          exact absurd hid' (by simp)
        · rw [if_neg hii] at hid'
          obtain ⟨ht', hc'⟩ := inv2 id' hid'
          refine ⟨by simp [hii, ht'], ?_⟩
          intro c
          simp only
          by_cases hc : c = packedToCell (getPackedCellKey p.x p.z)
          · rw [if_pos hc]
            simp only [Finset.mem_insert]
            by_cases hco : c = packedToCell oldPacked
            · rw [if_pos hco]
              simp only [Finset.mem_erase]
              simp [hii, hc' c]
            · rw [if_neg hco]
              simp [hii, hc' c]
          · rw [if_neg hc]
            by_cases hco : c = packedToCell oldPacked
            · rw [if_pos hco]
              simp only [Finset.mem_erase]
              simp [hii, hc' c]
            · rw [if_neg hco]
              exact hc' c

/-- GridInv is preserved by disconnect teardown. -/
theorem gridInv_removeEntity {s : ServerState} (inv : GridInv s) (entityId : Int) :
    GridInv (removeEntity s entityId) := by
  obtain ⟨inv1, inv2⟩ := inv
  unfold removeEntity
  cases htr : s.tracked entityId with
  | none =>
    rw [removeEntityFromGrid_untracked (show s.tracked entityId = none from htr)]
    have hent : s.entities entityId = none := by
      cases hent : s.entities entityId with
      | none => rfl
      | some q =>
        have := (inv1 entityId q hent).2.1
        rw [htr] at this
        exact absurd this (by simp)
    constructor
    · intro id' p' hid'
      simp only at hid'
      by_cases hii : id' = entityId
      · subst hii
        rw [if_pos rfl] at hid'
        exact absurd hid' (by simp)
      · rw [if_neg hii] at hid'
        exact inv1 id' p' hid'
    · intro id' hid'
      simp only at hid'
      by_cases hii : id' = entityId
      · subst hii
        exact inv2 _ hent
      · rw [if_neg hii] at hid'
        exact inv2 id' hid'
  | some packed =>
    rw [removeEntityFromGrid_tracked (show s.tracked entityId = some packed from htr)]
    have hent : ∃ q, s.entities entityId = some q := by
      cases hent : s.entities entityId with
      | some q => exact ⟨q, rfl⟩
      | none =>
        have := (inv2 entityId hent).1
        rw [htr] at this
        exact absurd this (by simp)
    obtain ⟨q, hq⟩ := hent
    obtain ⟨hrq, htq, hcq⟩ := inv1 entityId q hq
    have holdp : packed = getPackedCellKey q.x q.z := by
      rw [htr] at htq
      exact Option.some.inj htq
    have hunpackq : packedToCell packed = getCellCoords q.x q.z := by
      rw [holdp, getPackedCellKey_eq]
      exact packedToCell_pack hrq
    constructor
    · intro id' p' hid'
      simp only at hid'
      by_cases hii : id' = entityId
      · subst hii
        rw [if_pos rfl] at hid'
        exact absurd hid' (by simp)
      · rw [if_neg hii] at hid'
        obtain ⟨hr', ht', hc'⟩ := inv1 id' p' hid'
        refine ⟨hr', by simp [hii, ht'], ?_⟩
        intro c
        simp only
        by_cases hco : c = packedToCell packed
        · rw [if_pos hco]
          simp only [Finset.mem_erase]
          simp [hii, hc' c]
        · rw [if_neg hco]
          exact hc' c
    · intro id' hid'
      simp only at hid'
      by_cases hii : id' = entityId
      · subst hii
        refine ⟨by simp, ?_⟩
        intro c
        simp only
        by_cases hco : c = packedToCell packed
        · rw [if_pos hco]
          simp only [Finset.mem_erase]
          simp
        · rw [if_neg hco]
          rw [hcq c, hunpackq.symm]
          exact fun hcc => hco (hcc.symm ▸ rfl)
      · rw [if_neg hii] at hid'
        obtain ⟨ht', hc'⟩ := inv2 id' hid'
        refine ⟨by simp [hii, ht'], ?_⟩
        intro c
        simp only
        by_cases hco : c = packedToCell packed
        · rw [if_pos hco]
          simp only [Finset.mem_erase]
          simp [hc' c]
        · rw [if_neg hco]
          exact hc' c

/-- C8: in every reachable server state every entity of the table is a
member of exactly one cell's entity set, namely the cell of
locate(position), with the packed key recorded (GridInv); and moveEntity
is a no-op exactly when the packed key is unchanged, otherwise it removes
the id from the old cell, inserts it into the new cell, records the new
key, and leaves every other cell untouched. -/
theorem C8_grid_cell_consistency :
    (∀ s, Reachable s → GridInv s) ∧
    (∀ s : ServerState, ∀ entityId : Int, ∀ p : Vector3, ∀ old : Int,
      s.tracked entityId = some old → old = getPackedCellKey p.x p.z →
      updateEntityInGrid s entityId p = s) ∧
    (∀ s : ServerState, ∀ entityId : Int, ∀ p : Vector3, ∀ old : Int,
      s.tracked entityId = some old → old ≠ getPackedCellKey p.x p.z →
      (updateEntityInGrid s entityId p).tracked entityId =
          some (getPackedCellKey p.x p.z) ∧
      entityId ∈ (updateEntityInGrid s entityId p).cellEntities
          (packedToCell (getPackedCellKey p.x p.z)) ∧
      (packedToCell old ≠ packedToCell (getPackedCellKey p.x p.z) →
        entityId ∉ (updateEntityInGrid s entityId p).cellEntities (packedToCell old)) ∧
      (∀ c, c ≠ packedToCell old → c ≠ packedToCell (getPackedCellKey p.x p.z) →
        (updateEntityInGrid s entityId p).cellEntities c = s.cellEntities c)) := by
  refine ⟨?_, ?_, ?_⟩
  · intro s hr
    induction hr with
    | init =>
      constructor
      · intro id p hid
        exact absurd hid (by simp [initialState])
      · intro id _
        exact ⟨rfl, fun c => Finset.not_mem_empty id⟩
    | setPos entityId p hb hr ih => exact gridInv_setEntityPos ih entityId p hb
    | remove entityId hr ih => exact gridInv_removeEntity ih entityId
  · intro s entityId p old h he
    exact updateEntityInGrid_same h he
  · intro s entityId p old h hne
    rw [updateEntityInGrid_move h hne]
    refine ⟨by simp, ?_, ?_, ?_⟩
    · simp [Finset.mem_insert]
    · intro hcc
      simp only [if_neg hcc, if_pos rfl]
      exact Finset.not_mem_erase _ _
    · intro c hc1 hc2
      simp only [if_neg hc2, if_neg hc1]

/-- Witness for C8: the state after spawning entity 5 at the origin is
reachable and satisfies the invariant, and a grid update to the same cell
is a no-op. -/
theorem C8_grid_cell_consistency_witness :
    GridInv (setEntityPos initialState 5 ⟨qi 0, qi 0, qi 0⟩) ∧
    updateEntityInGrid (setEntityPos initialState 5 ⟨qi 0, qi 0, qi 0⟩) 5 ⟨qi 0, qi 0, qi 0⟩ =
      setEntityPos initialState 5 ⟨qi 0, qi 0, qi 0⟩ :=
  ⟨C8_grid_cell_consistency.1 _ (Reachable.setPos 5 _ (by decide) Reachable.init),
   C8_grid_cell_consistency.2.1 _ 5 _ (getPackedCellKey (qi 0) (qi 0)) (by decide) rfl⟩

/-- A JavaScript number extended with the non-finite values of IEEE-754:
none models NaN (the infinities decode to none as well; every operation
modelled below treats none as JavaScript treats NaN: arithmetic propagates
it, ordered comparisons are false, strict inequality is true). -/
def JNum := Option JQ

/-- NaN-propagating addition. -/
def jadd : JNum → JNum → JNum
  | some a, some b => some (a.add b)
  | _, _ => none

/-- NaN-propagating multiplication. -/
def jmul : JNum → JNum → JNum
  | some a, some b => some (a.mul b)
  | _, _ => none

/-- NaN-absorbing absolute value. -/
def jabs : JNum → JNum
  | some a => some a.abs
  | none => none

/-- JavaScript `<` on numbers: false when either side is NaN. -/
def jlt (a b : JNum) : Bool :=
  match a, b with
  | some a, some b => a.lt b
  | _, _ => false

/-- JavaScript `<=`/`>=` on numbers: false when either side is NaN. -/
def jle (a b : JNum) : Bool :=
  match a, b with
  | some a, some b => a.le b
  | _, _ => false

/-- JavaScript `!==` on numbers: true when either side is NaN (NaN is not
identical to anything, itself included). -/
def jne (a b : JNum) : Bool :=
  match a, b with
  | some a, some b => !(a.beq b)
  | _, _ => true

/-- Decode an IEEE-754 binary32 bit pattern into a model number: NaN and
the infinities (exponent 255) become none; normals and subnormals take
their exact rational value. This is the semantics of getFloat32. -/
def f32ToJNum (bits : Nat) : JNum :=
  let sign : Nat := bits / 2 ^ 31 % 2
  let expo : Nat := bits / 2 ^ 23 % 256
  let mant : Nat := bits % 2 ^ 23
  if expo = 255 then none
  else
    let mag : JQ :=
      if expo = 0 then ⟨(mant : Int), 2 ^ 149⟩
      else ⟨((2 ^ 23 + mant : Nat) : Int) * (2 : Int) ^ expo, 2 ^ 150⟩
    some (if sign = 1 then mag.neg else mag)

/-- decodeInput of protocol.ts over a byte list: null when shorter than 17
bytes or when the type byte is not MSG_TYPE.INPUT = 3; otherwise the four
little-endian float32 fields, decoded with no finiteness validation
whatsoever. -/
def decodeInput (b : List Nat) : Option (JNum × JNum × JNum × JNum) :=
  match b with
  | t :: x0 :: x1 :: x2 :: x3 :: z0 :: z1 :: z2 :: z3 ::
      r0 :: r1 :: r2 :: r3 :: p0 :: p1 :: p2 :: p3 :: _ =>
    if t = 3 then
      some (f32ToJNum (x0 + 256 * x1 + 65536 * x2 + 16777216 * x3),
            f32ToJNum (z0 + 256 * z1 + 65536 * z2 + 16777216 * z3),
            f32ToJNum (r0 + 256 * r1 + 65536 * r2 + 16777216 * r3),
            f32ToJNum (p0 + 256 * p1 + 65536 * p2 + 16777216 * p3))
    else none
  | _ => none

/-- The per-client mutable state touched by the INPUT path (index.ts,
ClientConnection and its entity): position, orientation and movement
intent, over NaN-aware numbers. -/
structure PlayerState where
  position : JNum × JNum × JNum
  rotation : JNum
  pitch : JNum
  moveDirection : JNum × JNum

/-- The INPUT branch of the websocket message handler (index.ts): when
decodeInput yields a value it is copied unconditionally into
moveDirection, entity.rotation and entity.pitch. -/
def handleInputMessage (st : PlayerState) (buffer : List Nat) : PlayerState :=
  match decodeInput buffer with
  | some (mx, mz, rot, pit) =>
    { st with moveDirection := (mx, mz), rotation := rot, pitch := pit }
  | none => st

/-- getNearbyObstacles under NaN coordinates: a NaN coordinate floors to a
NaN cell coordinate, whose stringly cache key misses every cached cell, so
the obstacle list is empty. -/
def getNearbyObstaclesJ (obstacles : List Obstacle) (x z : JNum) : List Obstacle :=
  match x, z with
  | some a, some b => getNearbyObstacles obstacles a b
  | _, _ => []

/-- The player checkCollision closure over NaN-aware numbers (index.ts):
all comparisons against NaN are false, so a NaN position passes the
boundary check and collides with nothing. -/
def playerCheckCollisionJ (obstacles : List Obstacle) (x z : JNum) : Bool :=
  let boundary := (TERRAIN_SIZE.div (qi 2)).sub (qi 10)
  if jle (some boundary) (jabs x) || jle (some boundary) (jabs z) then true
  else
    (getNearbyObstaclesJ obstacles x z).any (fun o =>
      SOLID_TYPES o.type &&
      (let halfX := (o.size.x.div (qi 2)).add (qf 3 2)
       let halfZ := (o.size.z.div (qi 2)).add (qf 3 2)
       jlt (some (o.position.x.sub halfX)) x && jlt x (some (o.position.x.add halfX)) &&
       jlt (some (o.position.z.sub halfZ)) z && jlt z (some (o.position.z.add halfZ))))

/-- The player movement step of gameTick over NaN-aware numbers, the same
code path as playerMoveStep (the ground height function is again a
parameter). -/
def playerMoveStepJ (h : JNum → JNum → JNum) (obstacles : List Obstacle)
    (st : PlayerState) (deltaTime : JQ) : PlayerState :=
  let mx := st.moveDirection.1
  let mz := st.moveDirection.2
  if jne mx (some (qi 0)) || jne mz (some (qi 0)) then
    let dx := jmul (jmul mx (some PLAYER_SPEED)) (some deltaTime)
    let dz := jmul (jmul mz (some PLAYER_SPEED)) (some deltaTime)
    let newX := jadd st.position.1 dx
    let newZ := jadd st.position.2.2 dz
    let finals :=
      if !(playerCheckCollisionJ obstacles newX newZ) then (newX, newZ)
      else
        ((if jne dx (some (qi 0)) && !(playerCheckCollisionJ obstacles newX st.position.2.2)
          then newX else st.position.1),
         (if jne dz (some (qi 0)) && !(playerCheckCollisionJ obstacles st.position.1 newZ)
          then newZ else st.position.2.2))
    if jne finals.1 st.position.1 || jne finals.2 st.position.2.2 then
      { st with position := (finals.1, h finals.1 finals.2, finals.2) }
    else st
  else st

/-- C4: the claim fails on the code (code bug). An INPUT frame whose four
float32 fields are NaN (bit pattern 0x7FC00000, little-endian bytes
0, 0, 192, 127) is decoded with no validation: rotation and pitch are
overwritten with NaN instead of keeping their previous values, and on the
next movement tick the NaN movement delta passes every collision test, so
the position is overwritten with NaN instead of staying unchanged —
whatever the ground height function is. -/
theorem C4_nan_input_corrupts_state (h : JNum → JNum → JNum) :
    (handleInputMessage
        ⟨(some (qi 1), some (qi 0), some (qi 1)), some (qi 0), some (qi 0),
         (some (qi 0), some (qi 0))⟩
        [3, 0, 0, 192, 127, 0, 0, 192, 127, 0, 0, 192, 127, 0, 0, 192, 127]).rotation
      = none ∧
    (handleInputMessage
        ⟨(some (qi 1), some (qi 0), some (qi 1)), some (qi 0), some (qi 0),
         (some (qi 0), some (qi 0))⟩
        [3, 0, 0, 192, 127, 0, 0, 192, 127, 0, 0, 192, 127, 0, 0, 192, 127]).pitch
      = none ∧
    (playerMoveStepJ h []
        (handleInputMessage
          ⟨(some (qi 1), some (qi 0), some (qi 1)), some (qi 0), some (qi 0),
           (some (qi 0), some (qi 0))⟩
          [3, 0, 0, 192, 127, 0, 0, 192, 127, 0, 0, 192, 127, 0, 0, 192, 127])
        (qf 1 30)).position.1
      = none ∧
    (playerMoveStepJ h []
        (handleInputMessage
          ⟨(some (qi 1), some (qi 0), some (qi 1)), some (qi 0), some (qi 0),
           (some (qi 0), some (qi 0))⟩
          [3, 0, 0, 192, 127, 0, 0, 192, 127, 0, 0, 192, 127, 0, 0, 192, 127])
        (qf 1 30)).position.1
      ≠ some (qi 1) := by
  refine ⟨rfl, rfl, rfl, ?_⟩
  intro hc
  exact Option.noConfusion hc

/-- One-byte write of setUint8 (protocol.ts); JavaScript truncates to the
byte range. -/
def putU8 (n : Nat) : List Nat := [n % 256]

/-- Little-endian two-byte write of setUint16. -/
def putU16 (n : Nat) : List Nat := [n % 256, n / 256 % 256]

/-- Little-endian four-byte write of setUint32. -/
def putU32 (n : Nat) : List Nat :=
  [n % 256, n / 256 % 256, n / 65536 % 256, n / 16777216 % 256]

/-- setFloat32 modelled on the 32-bit IEEE bit pattern it stores: a
float-valued wire field is carried as its pattern, which getFloat32
retrieves bit-exactly. -/
def putF32 (bits : Nat) : List Nat := putU32 bits

/-- getUint8 as a consuming reader. -/
def readU8 : List Nat → Option (Nat × List Nat)
  | b :: rest => some (b, rest)
  | [] => none

/-- Little-endian getUint16 as a consuming reader. -/
def readU16 : List Nat → Option (Nat × List Nat)
  | b0 :: b1 :: rest => some (b0 + 256 * b1, rest)
  | _ => none

/-- Little-endian getUint32 as a consuming reader. -/
def readU32 : List Nat → Option (Nat × List Nat)
  | b0 :: b1 :: b2 :: b3 :: rest =>
    some (b0 + 256 * b1 + 65536 * b2 + 16777216 * b3, rest)
  | _ => none

/-- getFloat32 as a consuming reader of the stored bit pattern. -/
def readF32 : List Nat → Option (Nat × List Nat) := readU32

/-- A float32-valued 3-vector on the wire, componentwise bit patterns. -/
structure WireVec3 where
  x : Nat
  y : Nat
  z : Nat
  deriving DecidableEq, Repr

/-- One entity record of an UPDATE frame (protocol.ts encodeUpdate). -/
structure WireEntity where
  id : Nat
  position : WireVec3
  rotation : Nat
  pitch : Nat
  hp : Nat
  maxHp : Nat
  isPlayer : Bool
  deriving DecidableEq, Repr

/-- The stats block of an UPDATE frame (protocol.ts); serverMode true
stands for the string 'los', false for 'classical'. -/
structure WireStats where
  totalEntities : Nat
  totalObstacles : Nat
  connectedPlayers : Nat
  tickTimeMsPerSec : Nat
  losTimeMsPerSec : Nat
  tickTimeMsAvg : Nat
  visibleEntities : Nat
  serverMode : Bool
  tickRate : Nat
  deriving DecidableEq, Repr

/-- A full UPDATE message as encodeUpdate receives it. -/
structure WireUpdate where
  myPosition : WireVec3
  entities : List WireEntity
  bullets : List WireVec3
  hits : List (WireVec3 × Bool)
  stats : WireStats
  deriving DecidableEq, Repr

/-- The 12-byte vector write of encodeUpdate. -/
def putVec3 (v : WireVec3) : List Nat := putF32 v.x ++ putF32 v.y ++ putF32 v.z

/-- The 29-byte entity write of encodeUpdate (flags bit 0 = isPlayer). -/
def putEntity (e : WireEntity) : List Nat :=
  putU32 e.id ++ putVec3 e.position ++ putF32 e.rotation ++ putF32 e.pitch ++
  putU16 e.hp ++ putU16 e.maxHp ++ putU8 (if e.isPlayer then 1 else 0)

/-- The 13-byte hit write of encodeUpdate. -/
def putHit (h : WireVec3 × Bool) : List Nat :=
  putVec3 h.1 ++ putU8 (if h.2 then 1 else 0)

/-- The 28-byte stats write of encodeUpdate; the two reserved bytes stay
at the zero the ArrayBuffer was initialized with. -/
def putStats (s : WireStats) : List Nat :=
  putU32 s.totalEntities ++ putU32 s.totalObstacles ++ putU16 s.connectedPlayers ++
  putF32 s.tickTimeMsPerSec ++ putF32 s.losTimeMsPerSec ++ putF32 s.tickTimeMsAvg ++
  putU16 s.visibleEntities ++ putU8 (if s.serverMode then 1 else 0) ++
  putU8 s.tickRate ++ [0, 0]

/-- encodeUpdate of protocol.ts: type byte 0x02, myPosition, the
length-prefixed entity, bullet and hit sections, then the stats block. -/
def encodeUpdate (m : WireUpdate) : List Nat :=
  putU8 2 ++ putVec3 m.myPosition ++
  putU16 m.entities.length ++ (m.entities.map putEntity).flatten ++
  putU16 m.bullets.length ++ (m.bullets.map putVec3).flatten ++
  putU16 m.hits.length ++ (m.hits.map putHit).flatten ++
  putStats m.stats

/-- An entity as decodeUpdate of client.js rebuilds it: the id becomes its
decimal string, a display name is attached, and flags bit 0 becomes
isPlayer. -/
structure DecodedEntity where
  id : String
  name : String
  position : WireVec3
  rotation : Nat
  pitch : Nat
  hp : Nat
  maxHp : Nat
  isPlayer : Bool
  deriving DecidableEq, Repr

/-- The stats block as decodeUpdate rebuilds it; serverMode byte 1 decodes
to the string 'los', anything else to 'classical'. -/
structure DecodedStats where
  totalEntities : Nat
  totalObstacles : Nat
  connectedPlayers : Nat
  tickTimeMsPerSec : Nat
  losTimeMsPerSec : Nat
  tickTimeMsAvg : Nat
  visibleEntities : Nat
  serverMode : String
  tickRate : Nat
  deriving DecidableEq, Repr

/-- A decoded UPDATE message (client.js decodeUpdate). -/
structure DecodedUpdate where
  myPosition : WireVec3
  entities : List DecodedEntity
  bullets : List WireVec3
  hits : List (WireVec3 × Bool)
  stats : DecodedStats
  deriving DecidableEq, Repr

/-- The 12-byte vector read of decodeUpdate. -/
def readVec3 (l : List Nat) : Option (WireVec3 × List Nat) :=
  match readF32 l with
  | none => none
  | some (x, l1) =>
    match readF32 l1 with
    | none => none
    | some (y, l2) =>
      match readF32 l2 with
      | none => none
      | some (z, l3) => some (⟨x, y, z⟩, l3)

/-- The 29-byte entity read of decodeUpdate: id, position, rotation,
pitch, hp, maxHp, flags, in the layout order (the source reads the flags
byte at offset + 28 of the same record, which the sequential reader
reaches last). -/
def readEntity (l : List Nat) : Option (DecodedEntity × List Nat) :=
  match readU32 l with
  | none => none
  | some (numericId, l1) =>
    match readVec3 l1 with
    | none => none
    | some (position, l2) =>
      match readF32 l2 with
      | none => none
      | some (rotation, l3) =>
        match readF32 l3 with
        | none => none
        | some (pitch, l4) =>
          match readU16 l4 with
          | none => none
          | some (hp, l5) =>
            match readU16 l5 with
            | none => none
            | some (maxHp, l6) =>
              match readU8 l6 with
              | none => none
              | some (flags, l7) =>
                let isPlayer := flags.land 1 != 0
                some (⟨toString numericId,
                       (if isPlayer then "Player " else "Bot ") ++ toString numericId,
                       position, rotation, pitch, hp, maxHp, isPlayer⟩, l7)

/-- The 13-byte hit read of decodeUpdate (hitEntity is the byte
compared against 1). -/
def readHit (l : List Nat) : Option ((WireVec3 × Bool) × List Nat) :=
  match readVec3 l with
  | none => none
  | some (position, l1) =>
    match readU8 l1 with
    | none => none
    | some (flag, l2) => some ((position, flag == 1), l2)

/-- A counted sequence of reads, as the client's per-entity/bullet/hit
loops over the decoded count. -/
def readListN {α : Type} (rd : List Nat → Option (α × List Nat)) :
    Nat → List Nat → Option (List α × List Nat)
  | 0, l => some ([], l)
  | Nat.succ n, l =>
    match rd l with
    | none => none
    | some (a, l1) =>
      match readListN rd n l1 with
      | none => none
      | some (as, l2) => some (a :: as, l2)

/-- decodeUpdate of client.js: skip the type byte (it is not checked),
then myPosition, the three counted sections, and the stats fields up to
tickRate; the two reserved bytes are never read. -/
def decodeUpdate (l : List Nat) : Option DecodedUpdate :=
  match readU8 l with
  | none => none
  | some (_, l1) =>
    match readVec3 l1 with
    | none => none
    | some (myPosition, l2) =>
      match readU16 l2 with
      | none => none
      | some (entityCount, l3) =>
        match readListN readEntity entityCount l3 with
        | none => none
        | some (entities, l4) =>
          match readU16 l4 with
          | none => none
          | some (bulletCount, l5) =>
            match readListN readVec3 bulletCount l5 with
            | none => none
            | some (bullets, l6) =>
              match readU16 l6 with
              | none => none
              | some (hitCount, l7) =>
                match readListN readHit hitCount l7 with
                | none => none
                | some (hits, l8) =>
                  match readU32 l8 with
                  | none => none
                  | some (totalEntities, l9) =>
                    match readU32 l9 with
                    | none => none
                    | some (totalObstacles, l10) =>
                      match readU16 l10 with
                      | none => none
                      | some (connectedPlayers, l11) =>
                        match readF32 l11 with
                        | none => none
                        | some (tickTimeMsPerSec, l12) =>
                          match readF32 l12 with
                          | none => none
                          | some (losTimeMsPerSec, l13) =>
                            match readF32 l13 with
                            | none => none
                            | some (tickTimeMsAvg, l14) =>
                              match readU16 l14 with
                              | none => none
                              | some (visibleEntities, l15) =>
                                match readU8 l15 with
                                | none => none
                                | some (serverModeByte, l16) =>
                                  match readU8 l16 with
                                  | none => none
                                  | some (tickRate, _) =>
                                    some ⟨myPosition, entities, bullets, hits,
                                      ⟨totalEntities, totalObstacles, connectedPlayers,
                                       tickTimeMsPerSec, losTimeMsPerSec, tickTimeMsAvg,
                                       visibleEntities,
                                       if serverModeByte = 1 then "los" else "classical",
                                       tickRate⟩⟩

/-- The image of a wire entity under the client's decoder. -/
def decodedEntityOf (e : WireEntity) : DecodedEntity :=
  ⟨toString e.id, (if e.isPlayer then "Player " else "Bot ") ++ toString e.id,
   e.position, e.rotation, e.pitch, e.hp, e.maxHp, e.isPlayer⟩

/-- The image of a wire stats block under the client's decoder. -/
def decodedStatsOf (s : WireStats) : DecodedStats :=
  ⟨s.totalEntities, s.totalObstacles, s.connectedPlayers, s.tickTimeMsPerSec,
   s.losTimeMsPerSec, s.tickTimeMsAvg, s.visibleEntities,
   if s.serverMode then "los" else "classical", s.tickRate⟩

/-- Field ranges under which the scalar writes are lossless. -/
def ValidF32 (n : Nat) : Prop := n < 4294967296

/-- Componentwise float32 validity. -/
def ValidVec3 (v : WireVec3) : Prop := ValidF32 v.x ∧ ValidF32 v.y ∧ ValidF32 v.z

/-- Entity-record validity: every field within its wire width. -/
def ValidEntity (e : WireEntity) : Prop :=
  e.id < 4294967296 ∧ ValidVec3 e.position ∧ ValidF32 e.rotation ∧ ValidF32 e.pitch ∧
  e.hp < 65536 ∧ e.maxHp < 65536

/-- Stats-block validity: every field within its wire width. -/
def ValidStats (s : WireStats) : Prop :=
  s.totalEntities < 4294967296 ∧ s.totalObstacles < 4294967296 ∧
  s.connectedPlayers < 65536 ∧ ValidF32 s.tickTimeMsPerSec ∧
  ValidF32 s.losTimeMsPerSec ∧ ValidF32 s.tickTimeMsAvg ∧
  s.visibleEntities < 65536 ∧ s.tickRate < 256

/-- A validly-constructed UPDATE: every count fits in 16 bits and every
field within its wire width. -/
def ValidUpdate (m : WireUpdate) : Prop :=
  ValidVec3 m.myPosition ∧
  m.entities.length < 65536 ∧ (∀ e ∈ m.entities, ValidEntity e) ∧
  m.bullets.length < 65536 ∧ (∀ b ∈ m.bullets, ValidVec3 b) ∧
  m.hits.length < 65536 ∧ (∀ h ∈ m.hits, ValidVec3 h.1) ∧
  ValidStats m.stats

/-- readU8 inverts putU8 on byte-range values. -/
theorem readU8_put (n : Nat) (r : List Nat) (h : n < 256) :
    readU8 (putU8 n ++ r) = some (n, r) := by
  simp [readU8, putU8, Nat.mod_eq_of_lt h]

/-- readU16 inverts putU16 on 16-bit values. -/
theorem readU16_put (n : Nat) (r : List Nat) (h : n < 65536) :
    readU16 (putU16 n ++ r) = some (n, r) := by
  simp only [readU16, putU16, List.cons_append, List.nil_append]
  refine congrArg some (Prod.ext ?_ rfl)
  simp only
  omega

/-- readU32 inverts putU32 on 32-bit values. -/
theorem readU32_put (n : Nat) (r : List Nat) (h : n < 4294967296) :
    readU32 (putU32 n ++ r) = some (n, r) := by
  simp only [readU32, putU32, List.cons_append, List.nil_append]
  refine congrArg some (Prod.ext ?_ rfl)
  simp only
  omega

/-- readF32 inverts putF32 on 32-bit patterns. -/
theorem readF32_put (n : Nat) (r : List Nat) (h : n < 4294967296) :
    readF32 (putF32 n ++ r) = some (n, r) := readU32_put n r h

/-- readVec3 inverts putVec3 on valid vectors. -/
theorem readVec3_put (v : WireVec3) (r : List Nat) (h : ValidVec3 v) :
    readVec3 (putVec3 v ++ r) = some (v, r) := by
  obtain ⟨h1, h2, h3⟩ := h
  unfold readVec3 putVec3
  simp only [List.append_assoc]
  rw [readF32_put _ _ h1]
  simp only
  rw [readF32_put _ _ h2]
  simp only
  rw [readF32_put _ _ h3]

/-- readEntity inverts putEntity on valid entities. -/
theorem readEntity_put (e : WireEntity) (r : List Nat) (h : ValidEntity e) :
    readEntity (putEntity e ++ r) = some (decodedEntityOf e, r) := by
  obtain ⟨h1, h2, h3, h4, h5, h6⟩ := h
  unfold readEntity putEntity
  simp only [List.append_assoc]
  rw [readU32_put _ _ h1]
  simp only
  rw [readVec3_put _ _ h2]
  simp only
  rw [readF32_put _ _ h3]
  simp only
  rw [readF32_put _ _ h4]
  simp only
  rw [readU16_put _ _ h5]
  simp only
  rw [readU16_put _ _ h6]
  simp only
  rw [readU8_put _ _ (by cases e.isPlayer <;> norm_num)]
  simp only [decodedEntityOf]
  cases e.isPlayer <;> rfl

/-- readHit inverts putHit on valid hit records. -/
theorem readHit_put (h : WireVec3 × Bool) (r : List Nat) (hv : ValidVec3 h.1) :
    readHit (putHit h ++ r) = some (h, r) := by
  unfold readHit putHit
  simp only [List.append_assoc]
  rw [readVec3_put _ _ hv]
  simp only
  rw [readU8_put _ _ (by cases h.2 <;> norm_num)]
  obtain ⟨p, b⟩ := h
  cases b <;> rfl

/-- readListN inverts a joined map of element writes. -/
theorem readListN_encode {α β : Type} (enc : α → List Nat)
    (rd : List Nat → Option (β × List Nat)) (f : α → β) :
    ∀ (xs : List α) (r : List Nat),
      (∀ x ∈ xs, ∀ r', rd (enc x ++ r') = some (f x, r')) →
      readListN rd xs.length ((xs.map enc).flatten ++ r) = some (xs.map f, r) := by
  intro xs
  induction xs with
  | nil =>
    intro r _
    simp [readListN]
  | cons x xs ih =>
    intro r h
    simp only [List.map_cons, List.flatten_cons, List.length_cons, List.append_assoc]
    rw [readListN]
    rw [h x (List.mem_cons_self _ _) _]
    simp only
    rw [ih r (fun y hy r' => h y (List.mem_cons_of_mem _ hy) r')]

/-- C7: decoding an encoded UPDATE reproduces the message, for every
validly-constructed UPDATE including the zero-entities, zero-bullets and
zero-hits cases: positions, rotations, hp, flags, bullets, hits and stats
all round-trip; the entity id comes back as its decimal string and the
serverMode flag as the strings 'los'/'classical', which is the client's
representation of the same values. -/
theorem C7_update_roundtrip (m : WireUpdate) (hv : ValidUpdate m) :
    decodeUpdate (encodeUpdate m) =
      some ⟨m.myPosition, m.entities.map decodedEntityOf, m.bullets, m.hits,
            decodedStatsOf m.stats⟩ := by
  obtain ⟨hmy, hel, hev, hbl, hbv, hhl, hhv, hs1, hs2, hs3, hs4, hs5, hs6, hs7, hs8⟩ := hv
  unfold decodeUpdate encodeUpdate putStats
  simp only [List.append_assoc]
  rw [readU8_put _ _ (by norm_num)]
  simp only
  rw [readVec3_put _ _ hmy]
  simp only
  rw [readU16_put _ _ hel]
  simp only
  rw [readListN_encode putEntity readEntity decodedEntityOf m.entities _
    (fun e he r' => readEntity_put e r' (hev e he))]
  simp only
  rw [readU16_put _ _ hbl]
  simp only
  rw [readListN_encode putVec3 readVec3 id m.bullets _
    (fun b hb r' => by rw [readVec3_put b r' (hbv b hb)]; rfl)]
  simp only
  rw [readU16_put _ _ hhl]
  simp only
  rw [readListN_encode putHit readHit id m.hits _
    (fun h hh r' => by rw [readHit_put h r' (hhv h hh)]; rfl)]
  simp only
  rw [readU32_put _ _ hs1]
  simp only
  rw [readU32_put _ _ hs2]
  simp only
  rw [readU16_put _ _ hs3]
  simp only
  rw [readF32_put _ _ hs4]
  simp only
  rw [readF32_put _ _ hs5]
  simp only
  rw [readF32_put _ _ hs6]
  simp only
  rw [readU16_put _ _ hs7]
  simp only
  rw [readU8_put _ _ (by cases m.stats.serverMode <;> norm_num)]
  simp only
  rw [readU8_put _ _ hs8]
  simp only [List.map_id, decodedStatsOf]
  cases m.stats.serverMode <;> rfl

/-- Witness for C7 at the empty UPDATE (zero entities, bullets and hits). -/
theorem C7_update_roundtrip_witness :
    ValidUpdate ⟨⟨0, 0, 0⟩, [], [], [], ⟨600, 5000, 1, 0, 0, 0, 0, false, 30⟩⟩ ∧
    decodeUpdate (encodeUpdate ⟨⟨0, 0, 0⟩, [], [], [], ⟨600, 5000, 1, 0, 0, 0, 0, false, 30⟩⟩) =
      some ⟨⟨0, 0, 0⟩, [], [], [], ⟨600, 5000, 1, 0, 0, 0, 0, "classical", 30⟩⟩ :=
  ⟨by norm_num [ValidUpdate, ValidVec3, ValidF32, ValidStats],
   C7_update_roundtrip ⟨⟨0, 0, 0⟩, [], [], [], ⟨600, 5000, 1, 0, 0, 0, 0, false, 30⟩⟩
     (by norm_num [ValidUpdate, ValidVec3, ValidF32, ValidStats])⟩

end WH
